import Mathlib

/-!
Verification of the node programs of the dist-sys-challenge repository
(`src/bin/{g-counter,broadcast,broadcast-e,kafka}.rs` over `src/lib.rs`).

The Rust code is shallowly embedded: each node's mutable struct becomes a Lean
structure, each `handle_msg` becomes a pure function from state and message to
`Option (state × emitted messages)`, where `none` models a `panic!` /
`unreachable!` / `Option::unwrap` failure (process abort).  `HashMap`s and
`HashSet`s are modelled as association lists / duplicate-free lists; their
iteration order is not observable in any property proved here except where a
map's contents are serialized into a reply, where the list order stands in for
the arbitrary hash order.
-/

/-- The payload variants of `InnerMessageBody` in `src/lib.rs` (the serde tags
are irrelevant to behaviour; field names follow the Rust ones). The three
`ReadOk` variants of `ReadOkVariants` are flattened into three constructors. -/
inductive Body where
  | initMsg (nodeId : String) (nodeIds : List String)
  | initOk
  | errorMsg (code : Nat) (text : Option String)
  | echoMsg (e : String)
  | echoOk (e : String)
  | generate
  | generateOk (g : String)
  | broadcastMsg (message : Nat)
  | broadcastOk
  | readMsg
  | readOkArray (messages : List Nat)
  | readOkSingle (value : Nat)
  | readOkKv (value : String)
  | topologyMsg (topology : List (String × List String))
  | topologyOk
  | batchBroadcast (messages : List Nat)
  | addMsg (delta : Nat)
  | addOk
  | readKv (key : String)
  | writeKv (key : String) (value : String)
  | writeKvOk
  | casKv (key : String) (casFrom : String) (casTo : String) (createIfNotExists : Bool)
  | casKvOk
  | sendMsg (key : String) (msg : Nat)
  | sendOk (offset : Nat)
  | pollMsg (offsets : List (String × Nat))
  | pollOk (msgs : List (String × List (Nat × Nat)))
  | commitOffsetsMsg (offsets : List (String × Nat))
  | commitOffsetsOk
  | listCommittedOffsetsMsg (keys : List String)
  | listCommittedOffsetsOk (offsets : List (String × Nat))
deriving DecidableEq, Repr

/-- `MessageBody` of `src/lib.rs`: optional `msg_id`, optional `in_reply_to`,
and the flattened payload. -/
structure MessageBody where
  id : Option Nat
  inReplyTo : Option Nat
  inner : Body
deriving DecidableEq, Repr

/-- `Message` of `src/lib.rs`. -/
structure Message where
  src : String
  dst : String
  body : MessageBody
deriving DecidableEq, Repr

/-- `HashMap` lookup on the association-list model. -/
def alLookup {α β : Type} [DecidableEq α] : List (α × β) → α → Option β
  | [], _ => none
  | (k, v) :: rest, key => if key = k then some v else alLookup rest key

/-- `HashMap::insert` on the model: replace the entry if the key is present,
otherwise append a fresh entry. -/
def alSet {α β : Type} [DecidableEq α] (l : List (α × β)) (key : α) (v : β) :
    List (α × β) :=
  match l with
  | [] => [(key, v)]
  | (k, w) :: rest => if key = k then (k, v) :: rest else (k, w) :: alSet rest key v

/-- `HashMap::remove` on the model, returning the removed value together with
the remaining map (`none` when the key is absent). -/
def alTake {α β : Type} [DecidableEq α] : List (α × β) → α → Option (β × List (α × β))
  | [], _ => none
  | (k, v) :: rest, key =>
    if key = k then some (v, rest)
    else
      match alTake rest key with
      | some (w, rest') => some (w, (k, v) :: rest')
      | none => none

/-- `HashMap::entry(key).and_modify(f)` with no `or_insert`: entries already
present are modified in place, absent keys are left absent. -/
def alModify {α β : Type} [DecidableEq α] (l : List (α × β)) (key : α) (f : β → β) :
    List (α × β) :=
  match l with
  | [] => []
  | (k, v) :: rest => if key = k then (k, f v) :: rest else (k, v) :: alModify rest key f

/-- `HashMap::entry(key).and_modify(f).or_insert(f dflt)`: modify the existing
entry, or append a fresh one initialised from `dflt`. -/
def alUpdate {α β : Type} [DecidableEq α] (l : List (α × β)) (key : α) (dflt : β)
    (f : β → β) : List (α × β) :=
  match l with
  | [] => [(key, f dflt)]
  | (k, v) :: rest => if key = k then (k, f v) :: rest else (k, v) :: alUpdate rest key dflt f

/-- `struct Log` of `kafka.rs`; `Default` gives all fields zero/empty. -/
structure KLog where
  nextOffset : Nat
  committed : Nat
  messages : List (Nat × Nat)
deriving DecidableEq, Repr

/-- `Log::default()`. -/
def KLog.dflt : KLog := { nextOffset := 0, committed := 0, messages := [] }

/-- `struct Node` of `kafka.rs` (the framed stdin/stdout handles are the
transport, external to the core). -/
structure KNode where
  id : Option String
  msgId : Nat
  unacknowledged : List Message
  logs : List (String × KLog)
deriving DecidableEq, Repr

/-- The node state `kafka.rs`'s `main` starts from. -/
def kInit : KNode := { id := none, msgId := 1, unacknowledged := [], logs := [] }

/-- `Node::handle_msg` of `kafka.rs`.  Result `none` models a panic
(`panic!` on double init or an `Error` message, `unreachable!` on an
unexpected kind, `Option::unwrap` on a missing node id). -/
def handleK (st : KNode) (msg : Message) : Option (KNode × List Message) :=
  match msg.body.inner with
  | .initMsg nodeId _ =>
    match st.id with
    | some _ => none
    | none =>
      let reply : Message :=
        { src := msg.dst, dst := msg.src,
          body := { id := some st.msgId, inReplyTo := msg.body.id, inner := .initOk } }
      some ({ st with id := some nodeId, msgId := st.msgId + 1 }, [reply])
  | .sendMsg key m =>
    match st.id with
    | none => none
    | some nid =>
      -- `self.logs.entry(key).or_default()` followed by the push and the
      -- `next_offset` bump, written as lookup-or-default plus write-back.
      let cur := (alLookup st.logs key).getD KLog.dflt
      let offset := cur.nextOffset
      let logs' := alSet st.logs key
        { cur with messages := cur.messages ++ [(offset, m)], nextOffset := offset + 1 }
      let reply : Message :=
        { src := nid, dst := msg.src,
          body := { id := some st.msgId, inReplyTo := msg.body.id,
                    inner := .sendOk offset } }
      some ({ st with logs := logs', msgId := st.msgId + 1 }, [reply])
  | .pollMsg offsets =>
    match st.id with
    | none => none
    | some nid =>
      -- Keys absent from the log table are skipped (`if let Some(log) = ...`).
      let msgs := offsets.filterMap (fun p =>
        (alLookup st.logs p.1).map (fun log =>
          (p.1, (log.messages.dropWhile (fun q => decide (q.1 < p.2))).take 20)))
      let reply : Message :=
        { src := nid, dst := msg.src,
          body := { id := some st.msgId, inReplyTo := msg.body.id,
                    inner := .pollOk msgs } }
      some ({ st with msgId := st.msgId + 1 }, [reply])
  | .commitOffsetsMsg offsets =>
    match st.id with
    | none => none
    | some nid =>
      let logs' := offsets.foldl
        (fun lg p => alModify lg p.1 (fun l => { l with committed := p.2 })) st.logs
      let reply : Message :=
        { src := nid, dst := msg.src,
          body := { id := some st.msgId, inReplyTo := msg.body.id,
                    inner := .commitOffsetsOk } }
      some ({ st with logs := logs', msgId := st.msgId + 1 }, [reply])
  | .listCommittedOffsetsMsg keys =>
    match st.id with
    | none => none
    | some nid =>
      let offsets := keys.filterMap (fun k =>
        (alLookup st.logs k).map (fun log => (k, log.committed)))
      let reply : Message :=
        { src := nid, dst := msg.src,
          body := { id := some st.msgId, inReplyTo := msg.body.id,
                    inner := .listCommittedOffsetsOk offsets } }
      some ({ st with msgId := st.msgId + 1 }, [reply])
  | .errorMsg _ _ => none
  | _ => none

/-- Run `handleK` over a list of inbound messages, ignoring the outputs;
`none` as soon as a step panics. -/
def runK (st : KNode) : List Message → Option KNode
  | [] => some st
  | m :: rest =>
    match handleK st m with
    | some (st', _) => runK st' rest
    | none => none

/-- Run `handleK` over a list of inbound messages, collecting every emitted
message in order. -/
def runKOut (st : KNode) : List Message → Option (KNode × List Message)
  | [] => some (st, [])
  | m :: rest =>
    match handleK st m with
    | some (st', out) => (runKOut st' rest).map (fun p => (p.1, out ++ p.2))
    | none => none

example :
    (runK kInit
      [ { src := "c0", dst := "n0",
          body := { id := some 1, inReplyTo := none, inner := .initMsg "n0" ["n0"] } },
        { src := "c1", dst := "n0",
          body := { id := some 1, inReplyTo := none, inner := .sendMsg "k1" 7 } } ]).isSome
      = true := by decide

/-- The `COUNTER` key constant of `g-counter.rs`. -/
def COUNTER : String := "counter"

/-- The `SEQ_KV` service name constant of `g-counter.rs`. -/
def SEQKV : String := "seq-kv"

/-- The acknowledgment scan shared by the reply arms
(`for (i, m) in self.unacknowledged.iter().enumerate() { if m.body.id.unwrap()
== msg.body.in_reply_to.unwrap() { self.unacknowledged.remove(i); ...; break } }`):
remove the first entry whose `body.id` equals the incoming `in_reply_to`.
Returns the remaining list and whether a match was found (`found = !duplicate`);
`none` models the panic of `Option::unwrap` on a missing id (for each entry the
loop actually visits). Entries after the first match are not inspected. -/
def ackScan (irt : Option Nat) : List Message → Option (List Message × Bool)
  | [] => some ([], false)
  | m :: rest =>
    match m.body.id, irt with
    | some mid, some k =>
      if mid = k then some (rest, true)
      else
        match ackScan irt rest with
        | some (rest', found) => some (m :: rest', found)
        | none => none
    | _, _ => none

/-- Digit string to number, most significant first. -/
def digitsToNat (l : List Char) : Nat :=
  l.foldl (fun acc c => acc * 10 + (c.toNat - 48)) 0

/-- Models Rust `str::parse::<u64>`: an optional leading `+`, then one or more
ASCII digits. Overflow is not modelled; values stay in `Nat`. -/
def parseU64 (s : String) : Option Nat :=
  let l := s.toList
  let l := match l with
    | '+' :: rest => rest
    | _ => l
  if l ≠ [] ∧ l.all Char.isDigit then some (digitsToNat l) else none

/-- The digit-run extraction in the error-22 arm of `g-counter.rs`:
`error.trim_start_matches(|c| !is_numeric(c)).chars().take_while(is_numeric)
.collect::<String>().parse()` — strip the leading non-digit run, keep the first
maximal digit run, parse it.  `char::is_numeric` is modelled as the ASCII digit
test, with which it agrees on every string `parse::<u64>` accepts. -/
def extractNum (s : String) : Option Nat :=
  parseU64 (String.mk ((s.toList.dropWhile (fun c => !c.isDigit)).takeWhile Char.isDigit))

/-- `struct Node` of `g-counter.rs`.  `requestMap` is the
`HashMap<u64, (String, u64, Option<u64>)>` from a KV request's message id to
(client id, client message id, delta of the pending Add, if any). -/
structure GNode where
  id : Option String
  msgId : Nat
  unacknowledged : List Message
  requestMap : List (Nat × (String × Nat × Option Nat))
deriving DecidableEq, Repr

/-- The node state `g-counter.rs`'s `main` starts from. -/
def gInit : GNode := { id := none, msgId := 1, unacknowledged := [], requestMap := [] }

/-- The KV read request the Read and Add arms of `g-counter.rs` construct. -/
def gKvRead (nid : String) (i : Nat) : Message :=
  { src := nid, dst := SEQKV,
    body := { id := some i, inReplyTo := none, inner := .readKv COUNTER } }

/-- The compare-and-swap request the ReadOk-Kv and error-22 arms of
`g-counter.rs` construct (with `create_if_not_exists: false`). -/
def gCas (nid : String) (i : Nat) (casFrom casTo : String) : Message :=
  { src := nid, dst := SEQKV,
    body := { id := some i, inReplyTo := none,
              inner := .casKv COUNTER casFrom casTo false } }

/-- `Node::handle_msg` of `g-counter.rs`.  Result `none` models a process
abort: `panic!` on double init or on an `Error` arm that does not match
code 22 with text, `todo!` in the WriteKvOk arm, `unreachable!` on unexpected
kinds, and every `unwrap`/`expect` on missing data. -/
def handleG (st : GNode) (msg : Message) : Option (GNode × List Message) :=
  match msg.body.inner with
  | .initMsg nodeId _ =>
    match st.id with
    | some _ => none
    | none =>
      let initKv : Message :=
        { src := nodeId, dst := SEQKV,
          body := { id := some st.msgId, inReplyTo := none,
                    inner := .casKv COUNTER "0" "0" true } }
      let reply : Message :=
        { src := msg.dst, dst := msg.src,
          body := { id := some (st.msgId + 1), inReplyTo := msg.body.id,
                    inner := .initOk } }
      some ({ st with id := some nodeId,
                      unacknowledged := st.unacknowledged ++ [initKv],
                      msgId := st.msgId + 2 }, [initKv, reply])
  | .readMsg =>
    match st.id, msg.body.id with
    | some nid, some mid =>
      let kvRequest := gKvRead nid st.msgId
      some ({ st with requestMap := alSet st.requestMap st.msgId (msg.src, mid, none),
                      unacknowledged := st.unacknowledged ++ [kvRequest],
                      msgId := st.msgId + 1 }, [kvRequest])
    | _, _ => none
  | .readOkKv value =>
    match ackScan msg.body.inReplyTo st.unacknowledged with
    | none => none
    | some (unack', false) => some ({ st with unacknowledged := unack' }, [])
    | some (unack', true) =>
      match msg.body.inReplyTo with
      | none => none
      | some k =>
        match st.id with
        | none => none
        | some nid =>
          match alTake st.requestMap k with
          | none => none
          | some ((client, irt, delta), rmap') =>
            match parseU64 value with
            | none => none
            | some parsed =>
              match delta with
              | some d =>
                -- step 2 of an Add: CAS from the value string we just read.
                let kvRequest := gCas nid st.msgId value (toString (parsed + d))
                some ({ st with unacknowledged := unack' ++ [kvRequest],
                                requestMap := alSet rmap' st.msgId (client, irt, some d),
                                msgId := st.msgId + 1 }, [kvRequest])
              | none =>
                -- a client Read: forward the parsed value.
                let reply : Message :=
                  { src := nid, dst := client,
                    body := { id := some st.msgId, inReplyTo := some irt,
                              inner := .readOkSingle parsed } }
                some ({ st with unacknowledged := unack', requestMap := rmap',
                                msgId := st.msgId + 1 }, [reply])
  | .addMsg delta =>
    match st.id, msg.body.id with
    | some nid, some mid =>
      let kvRequest := gKvRead nid st.msgId
      some ({ st with requestMap := alSet st.requestMap st.msgId (msg.src, mid, some delta),
                      unacknowledged := st.unacknowledged ++ [kvRequest],
                      msgId := st.msgId + 1 }, [kvRequest])
    | _, _ => none
  | .casKvOk =>
    match ackScan msg.body.inReplyTo st.unacknowledged with
    | none => none
    | some (unack', false) => some ({ st with unacknowledged := unack' }, [])
    | some (unack', true) =>
      match msg.body.inReplyTo with
      | none => none
      | some k =>
        match alTake st.requestMap k with
        | some ((client, irt, _), rmap') =>
          match st.id with
          | none => none
          | some nid =>
            let reply : Message :=
              { src := nid, dst := client,
                body := { id := some st.msgId, inReplyTo := some irt,
                          inner := .addOk } }
            some ({ st with unacknowledged := unack', requestMap := rmap',
                            msgId := st.msgId + 1 }, [reply])
        | none =>
          -- the `if let Some(...)` failed: an acknowledged CAS with no pending
          -- client request (the init seed); no reply.
          some ({ st with unacknowledged := unack' }, [])
  | .writeKvOk => none
  | .errorMsg code text =>
    if code = 22 then
      match text with
      | none => none
      | some e =>
        match ackScan msg.body.inReplyTo st.unacknowledged with
        | none => none
        | some (unack', false) => some ({ st with unacknowledged := unack' }, [])
        | some (unack', true) =>
          match msg.body.inReplyTo with
          | none => none
          | some k =>
            match extractNum e with
            | none => none
            | some parsed =>
              match alTake st.requestMap k with
              | none => none
              | some ((client, irt, delta), rmap') =>
                match delta with
                | none => none
                | some d =>
                  match st.id with
                  | none => none
                  | some nid =>
                    let kvRequest :=
                      gCas nid st.msgId (toString parsed) (toString (parsed + d))
                    some ({ st with unacknowledged := unack' ++ [kvRequest],
                                    requestMap :=
                                      alSet rmap' st.msgId (client, irt, some d),
                                    msgId := st.msgId + 1 }, [kvRequest])
    else none
  | _ => none

example :
    (handleG { gInit with id := some "n1", msgId := 5 }
      { src := "c1", dst := "n1",
        body := { id := some 7, inReplyTo := none, inner := .addMsg 0 } })
      = some ({ id := some "n1", msgId := 6,
                unacknowledged := [gKvRead "n1" 5],
                requestMap := [(5, ("c1", 7, some 0))] }, [gKvRead "n1" 5]) := by decide

/-- `HashSet::insert` on the duplicate-free-list model: add the value if
absent; the Bool is Rust's return value (`true` iff newly inserted). -/
def hsInsert (x : Nat) (s : List Nat) : List Nat × Bool :=
  if x ∈ s then (s, false) else (x :: s, true)

/-- The `fanout` constant of the Topology arms of `broadcast.rs` and
`broadcast-e.rs`. -/
def fanout : Nat := 4

/-- The child slice of the Topology arm:
`if child_idx < len { &nodes[child_idx..min(child_idx + fanout, len)] } else { &[] }`
with `child_idx = fanout * i + 1`. -/
def childSlice (nodes : List String) (i : Nat) : List String :=
  let childIdx := fanout * i + 1
  if childIdx < nodes.length then
    (nodes.drop childIdx).take (min (childIdx + fanout) nodes.length - childIdx)
  else []

/-- The parent slice of the Topology arm:
`if i != 0 { &nodes[parent_idx..parent_idx + 1] } else { &[] }` with
`parent_idx = (i - 1) / fanout`. -/
def parentSlice (nodes : List String) (i : Nat) : List String :=
  if i ≠ 0 then (nodes.drop ((i - 1) / fanout)).take 1 else []

/-- `self.neighbors = [parent, children].concat()`. -/
def neighborsOf (nodes : List String) (i : Nat) : List String :=
  parentSlice nodes i ++ childSlice nodes i

/-- Lexicographic strict order on char lists (by code point), the order
`Vec<String>::sort` sorts by. -/
def strLtChars : List Char → List Char → Bool
  | [], [] => false
  | [], _ :: _ => true
  | _ :: _, [] => false
  | a :: as, b :: bs =>
    if a.toNat < b.toNat then true
    else if b.toNat < a.toNat then false
    else strLtChars as bs

/-- `a ≤ b` in the lexicographic string order. -/
def strLe (a b : String) : Bool := !(strLtChars b.data a.data)

/-- Insert into a sorted list, keeping order (helper of `sortStrings`). -/
def insertSorted (x : String) : List String → List String
  | [] => [x]
  | y :: rest => if strLe x y then x :: y :: rest else y :: insertSorted x rest

/-- Stable insertion sort; models `Vec::sort` on the node-id list (identical
result: the ids in nondecreasing order; node ids are distinct strings). -/
def sortStrings (l : List String) : List String := l.foldr insertSorted []

/-- Index of `x` in `l`; models `Vec::binary_search(&x).unwrap()` on the
sorted, duplicate-free node list (both return the index of `x` when present;
`none` models the `unwrap` panic when absent). -/
def idxOf? {α : Type} [DecidableEq α] (x : α) : List α → Option Nat
  | [] => none
  | y :: rest => if x = y then some 0 else (idxOf? x rest).map (· + 1)

/-- `struct Node` of `broadcast-e.rs`. -/
structure BENode where
  id : Option String
  msgId : Nat
  known : List Nat
  neighbors : List String
  nodes : List String
  nextBatch : List (String × List Nat)
  unacknowledged : List Message
deriving DecidableEq, Repr

/-- The node state `broadcast-e.rs`'s `main` starts from. -/
def beInit : BENode :=
  { id := none, msgId := 1, known := [], neighbors := [], nodes := [],
    nextBatch := [], unacknowledged := [] }

/-- The body of the BatchBroadcast arm of `broadcast-e.rs`: for each incoming
value, `HashSet::insert` it; when newly inserted, append it to the outgoing
batch of every neighbor other than the sender
(`entry(n).and_modify(push).or_insert(vec![m])`). -/
def beAbsorb (neighbors : List String) (sender : String)
    (acc : List Nat × List (String × List Nat)) :
    List Nat → List Nat × List (String × List Nat)
  | [] => acc
  | m :: rest =>
    let r := hsInsert m acc.1
    let batch' :=
      if r.2 then
        (neighbors.filter (fun n => n ≠ sender)).foldl
          (fun b n => alUpdate b n [] (· ++ [m])) acc.2
      else acc.2
    beAbsorb neighbors sender (r.1, batch') rest

/-- `Node::handle_msg` of `broadcast-e.rs`.  `none` models `panic!` on double
init, `unreachable!` on unexpected kinds, and `unwrap` on missing data.
`debug_assert!` calls are compiled out in release builds and modelled as
no-ops. -/
def handleBE (st : BENode) (msg : Message) : Option (BENode × List Message) :=
  match msg.body.inner with
  | .initMsg nodeId nodeIds =>
    match st.id with
    | some _ => none
    | none =>
      let reply : Message :=
        { src := msg.dst, dst := msg.src,
          body := { id := some st.msgId, inReplyTo := msg.body.id, inner := .initOk } }
      some ({ st with id := some nodeId,
                      nodes := sortStrings nodeIds,
                      msgId := st.msgId + 1 }, [reply])
  | .broadcastMsg m =>
    -- Client broadcast: insert into `known`, then append to every neighbor's
    -- batch unconditionally (clients are assumed duplicate-free; the
    -- `debug_assert!(!already_seen)` is a no-op in release builds).
    let known' := (hsInsert m st.known).1
    let batch' := st.neighbors.foldl (fun b n => alUpdate b n [] (· ++ [m])) st.nextBatch
    let reply : Message :=
      { src := msg.dst, dst := msg.src,
        body := { id := some st.msgId, inReplyTo := msg.body.id, inner := .broadcastOk } }
    some ({ st with known := known', nextBatch := batch', msgId := st.msgId + 1 },
          [reply])
  | .batchBroadcast messages =>
    let kb := beAbsorb st.neighbors msg.src (st.known, st.nextBatch) messages
    let reply : Message :=
      { src := msg.dst, dst := msg.src,
        body := { id := some st.msgId, inReplyTo := msg.body.id, inner := .broadcastOk } }
    some ({ st with known := kb.1, nextBatch := kb.2, msgId := st.msgId + 1 },
          [reply])
  | .topologyMsg _ =>
    match st.id with
    | none => none
    | some nid =>
      match idxOf? nid st.nodes with
      | none => none
      | some i =>
        let reply : Message :=
          { src := msg.dst, dst := msg.src,
            body := { id := some st.msgId, inReplyTo := msg.body.id,
                      inner := .topologyOk } }
        some ({ st with neighbors := neighborsOf st.nodes i, msgId := st.msgId + 1 },
              [reply])
  | .readMsg =>
    let reply : Message :=
      { src := msg.dst, dst := msg.src,
        body := { id := some st.msgId, inReplyTo := msg.body.id,
                  inner := .readOkArray st.known } }
    some ({ st with msgId := st.msgId + 1 }, [reply])
  | .broadcastOk =>
    match ackScan msg.body.inReplyTo st.unacknowledged with
    | none => none
    | some (unack', _) => some ({ st with unacknowledged := unack' }, [])
  | _ => none

/-- The loop body of the 150 ms batch ticker of `broadcast-e.rs`: for every
entry of `next_batch` (entries are never removed, so this includes entries
whose batch is empty), build one `BatchBroadcast` with a fresh message id
carrying `std::mem::take` of the batch — which leaves the entry present but
empty — and push it onto `unacknowledged`.  Returns the updated batch map,
the next message id, and the emitted messages in order. -/
def batchTickGo (nid : String) (msgId : Nat) :
    List (String × List Nat) → List (String × List Nat) × Nat × List Message
  | [] => ([], msgId, [])
  | (k, v) :: rest =>
    let gossip : Message :=
      { src := nid, dst := k,
        body := { id := some msgId, inReplyTo := none, inner := .batchBroadcast v } }
    let r := batchTickGo nid (msgId + 1) rest
    ((k, []) :: r.1, r.2.1, gossip :: r.2.2)

/-- One firing of the batch ticker of `broadcast-e.rs`'s main loop.  `none`
models the `unwrap` panic on an unset node id (only reachable when the loop
actually runs, i.e. when `next_batch` is non-empty). -/
def batchTick (st : BENode) : Option (BENode × List Message) :=
  match st.nextBatch with
  | [] => some (st, [])
  | _ =>
    match st.id with
    | none => none
    | some nid =>
      let r := batchTickGo nid st.msgId st.nextBatch
      some ({ st with nextBatch := r.1, msgId := r.2.1,
                      unacknowledged := st.unacknowledged ++ r.2.2 }, r.2.2)

/-- The events the `tokio::select!` loop of `broadcast-e.rs` reacts to. -/
inductive BEEvent where
  | deliver (msg : Message)
  | battick
  | retrytick
deriving DecidableEq, Repr

/-- One iteration of `broadcast-e.rs`'s main loop.  The retry ticker re-sends
every unacknowledged message verbatim and changes no state. -/
def stepBE (st : BENode) : BEEvent → Option (BENode × List Message)
  | .deliver m => handleBE st m
  | .battick => batchTick st
  | .retrytick => some (st, st.unacknowledged)

/-- Run `stepBE` over a list of events, collecting every emitted message. -/
def runBE (st : BENode) : List BEEvent → Option (BENode × List Message)
  | [] => some (st, [])
  | e :: rest =>
    match stepBE st e with
    | some (st', out) => (runBE st' rest).map (fun p => (p.1, out ++ p.2))
    | none => none

/-- `struct Node` of `broadcast.rs` (the per-value gossip variant). -/
structure BNode where
  id : Option String
  msgId : Nat
  known : List Nat
  neighbors : List String
  nodes : List String
  unacknowledged : List Message
deriving DecidableEq, Repr

/-- The gossip loop of the Broadcast arm of `broadcast.rs`: one `Broadcast`
message, with a fresh id, per neighbor other than the sender; each is pushed
onto `unacknowledged`. -/
def gossipGo (nid : String) (m : Nat) (msgId : Nat) :
    List String → Nat × List Message
  | [] => (msgId, [])
  | n :: rest =>
    let g : Message :=
      { src := nid, dst := n,
        body := { id := some msgId, inReplyTo := none, inner := .broadcastMsg m } }
    let r := gossipGo nid m (msgId + 1) rest
    (r.1, g :: r.2)

/-- `Node::handle_msg` of `broadcast.rs`.  `none` models the panics as in
`handleBE`. -/
def handleB (st : BNode) (msg : Message) : Option (BNode × List Message) :=
  match msg.body.inner with
  | .initMsg nodeId nodeIds =>
    match st.id with
    | some _ => none
    | none =>
      let reply : Message :=
        { src := msg.dst, dst := msg.src,
          body := { id := some st.msgId, inReplyTo := msg.body.id, inner := .initOk } }
      some ({ st with id := some nodeId,
                      nodes := sortStrings nodeIds,
                      msgId := st.msgId + 1 }, [reply])
  | .broadcastMsg m =>
    let kf := hsInsert m st.known
    let recip := st.neighbors.filter (fun n => n ≠ msg.src)
    if kf.2 ∧ recip ≠ [] then
      match st.id with
      | none => none
      | some nid =>
        let r := gossipGo nid m st.msgId recip
        let reply : Message :=
          { src := msg.dst, dst := msg.src,
            body := { id := some r.1, inReplyTo := msg.body.id,
                      inner := .broadcastOk } }
        some ({ st with known := kf.1,
                        unacknowledged := st.unacknowledged ++ r.2,
                        msgId := r.1 + 1 }, r.2 ++ [reply])
    else
      let reply : Message :=
        { src := msg.dst, dst := msg.src,
          body := { id := some st.msgId, inReplyTo := msg.body.id,
                    inner := .broadcastOk } }
      some ({ st with known := kf.1, msgId := st.msgId + 1 }, [reply])
  | .topologyMsg _ =>
    match st.id with
    | none => none
    | some nid =>
      match idxOf? nid st.nodes with
      | none => none
      | some i =>
        let reply : Message :=
          { src := msg.dst, dst := msg.src,
            body := { id := some st.msgId, inReplyTo := msg.body.id,
                      inner := .topologyOk } }
        some ({ st with neighbors := neighborsOf st.nodes i, msgId := st.msgId + 1 },
              [reply])
  | .readMsg =>
    let reply : Message :=
      { src := msg.dst, dst := msg.src,
        body := { id := some st.msgId, inReplyTo := msg.body.id,
                  inner := .readOkArray st.known } }
    some ({ st with msgId := st.msgId + 1 }, [reply])
  | .broadcastOk =>
    match ackScan msg.body.inReplyTo st.unacknowledged with
    | none => none
    | some (unack', _) => some ({ st with unacknowledged := unack' }, [])
  | _ => none

/-- `true` exactly on the `WriteKv` payload (the store-write message kind). -/
def isWriteKv : Body → Bool
  | .writeKv _ _ => true
  | _ => false

/-- Well-formed log: the recorded offsets are exactly `0, 1, …, nextOffset-1`
in order (the invariant the Send arm maintains). -/
def WFLog (l : KLog) : Prop := l.messages.map Prod.fst = List.range l.nextOffset

/-- Every log in the table is well-formed. -/
def WFLogs (st : KNode) : Prop := ∀ p ∈ st.logs, WFLog p.2

theorem alLookup_mem {α β : Type} [DecidableEq α] {l : List (α × β)} {k : α} {v : β}
    (h : alLookup l k = some v) : (k, v) ∈ l := by
  induction l with
  | nil => simp [alLookup] at h
  | cons p rest ih =>
    unfold alLookup at h
    by_cases hk : k = p.1
    · simp [hk] at h
      obtain ⟨p1, p2⟩ := p
      simp_all
    · simp [hk] at h
      exact List.mem_cons_of_mem _ (ih h)

theorem alLookup_alSet_self {α β : Type} [DecidableEq α] (l : List (α × β)) (k : α)
    (v : β) : alLookup (alSet l k v) k = some v := by
  induction l with
  | nil => simp [alSet, alLookup]
  | cons p rest ih =>
    unfold alSet
    by_cases hk : k = p.1
    · simp [hk, alLookup]
    · simp [hk, alLookup, ih]

theorem alSet_mem {α β : Type} [DecidableEq α] {l : List (α × β)} {k : α} {v : β}
    {p : α × β} (h : p ∈ alSet l k v) : p ∈ l ∨ p = (k, v) := by
  induction l with
  | nil =>
    simp [alSet] at h
    simp [h]
  | cons q rest ih =>
    unfold alSet at h
    by_cases hk : k = q.1
    · simp [hk] at h
      rcases h with h | h
      · right; rw [h, hk]
      · left; exact List.mem_cons_of_mem _ h
    · simp [hk] at h
      rcases h with h | h
      · left; simp [h]
      · rcases ih h with h' | h'
        · left; exact List.mem_cons_of_mem _ h'
        · right; exact h'

theorem alModify_absent {α β : Type} [DecidableEq α] {l : List (α × β)} {k : α}
    (f : β → β) (h : alLookup l k = none) : alModify l k f = l := by
  induction l with
  | nil => simp [alModify]
  | cons p rest ih =>
    unfold alLookup at h
    unfold alModify
    by_cases hk : k = p.1
    · simp [hk] at h
    · simp [hk] at h ⊢
      exact ih h

theorem alLookup_alModify_self {α β : Type} [DecidableEq α] {l : List (α × β)} {k : α}
    {v : β} (f : β → β) (h : alLookup l k = some v) :
    alLookup (alModify l k f) k = some (f v) := by
  induction l with
  | nil => simp [alLookup] at h
  | cons p rest ih =>
    unfold alLookup at h
    unfold alModify
    by_cases hk : k = p.1
    · simp [hk] at h ⊢
      simp [alLookup, h]
    · simp [hk] at h ⊢
      simp [alLookup, hk]
      exact ih h

theorem alModify_mem {α β : Type} [DecidableEq α] {l : List (α × β)} {k : α}
    {f : β → β} {p : α × β} (h : p ∈ alModify l k f) :
    p ∈ l ∨ ∃ q ∈ l, q.1 = k ∧ p = (k, f q.2) := by
  induction l with
  | nil => simp [alModify] at h
  | cons q rest ih =>
    unfold alModify at h
    by_cases hk : k = q.1
    · simp [hk] at h
      rcases h with h | h
      · right; exact ⟨q, List.mem_cons_self _ _, hk.symm, by rw [h, hk]⟩
      · left; exact List.mem_cons_of_mem _ h
    · simp [hk] at h
      rcases h with h | h
      · left; simp [h]
      · rcases ih h with h' | ⟨q', hq', hk', hp⟩
        · left; exact List.mem_cons_of_mem _ h'
        · right; exact ⟨q', List.mem_cons_of_mem _ hq', hk', hp⟩

/-- A counter node mid-run: initialised as `n1`, message-id counter at 5, no
in-flight requests. -/
def gDemo : GNode :=
  { id := some "n1", msgId := 5, unacknowledged := [], requestMap := [] }

/-- An `Add { delta: 0 }` request from client `c1`. -/
def gAdd0 : Message :=
  { src := "c1", dst := "n1",
    body := { id := some 7, inReplyTo := none, inner := .addMsg 0 } }

/-- A `Read` request from client `c2`. -/
def gReadReq : Message :=
  { src := "c2", dst := "n1",
    body := { id := some 9, inReplyTo := none, inner := .readMsg } }

/-- C3 counterexample: an `Add { delta: 0 }` is *not* acknowledged
immediately — the handler emits exactly one message, a `read` RPC to the
`seq-kv` store (no `AddOk`), registers the request as pending, and bumps the
message-id counter; the Add arm of `g-counter.rs` has no `delta = 0` special
case. -/
theorem add_zero_counterexample :
    handleG gDemo gAdd0
      = some ({ id := some "n1", msgId := 6, unacknowledged := [gKvRead "n1" 5],
                requestMap := [(5, ("c1", 7, some 0))] }, [gKvRead "n1" 5])
    ∧ (gKvRead "n1" 5).dst = SEQKV
    ∧ (gKvRead "n1" 5).body.inner = .readKv COUNTER
    ∧ (gKvRead "n1" 5).body.inner ≠ .addOk := by decide

/-- C3 (amended): for every `Add` request — `delta = 0` included — an
initialised counter node issues a `read` RPC for the counter key to the
`seq-kv` store, records the pending request under the fresh message id, and
emits nothing else (in particular no immediate `AddOk`). -/
theorem add_always_reads_kv (st : GNode) (nid csrc cdst : String) (mid delta : Nat)
    (irt : Option Nat) (hid : st.id = some nid) :
    handleG st { src := csrc, dst := cdst,
                 body := { id := some mid, inReplyTo := irt, inner := .addMsg delta } }
      = some ({ st with
                  requestMap := alSet st.requestMap st.msgId (csrc, mid, some delta),
                  unacknowledged := st.unacknowledged ++ [gKvRead nid st.msgId],
                  msgId := st.msgId + 1 },
              [gKvRead nid st.msgId])
    ∧ (gKvRead nid st.msgId).dst = SEQKV
    ∧ (gKvRead nid st.msgId).body.inner ≠ .addOk := by
  refine ⟨?_, rfl, by simp [gKvRead]⟩
  simp [handleG, hid]

/-- Witness for `add_always_reads_kv` at the concrete node `gDemo` and request
`gAdd0`. -/
theorem add_always_reads_kv_witness :
    gDemo.id = some "n1" ∧
    (handleG gDemo gAdd0
      = some ({ gDemo with
                  requestMap := alSet gDemo.requestMap gDemo.msgId ("c1", 7, some 0),
                  unacknowledged := gDemo.unacknowledged ++ [gKvRead "n1" gDemo.msgId],
                  msgId := gDemo.msgId + 1 },
              [gKvRead "n1" gDemo.msgId])
    ∧ (gKvRead "n1" gDemo.msgId).dst = SEQKV
    ∧ (gKvRead "n1" gDemo.msgId).body.inner ≠ .addOk) :=
  ⟨by decide, add_always_reads_kv gDemo "n1" "c1" "n1" 7 0 none (by decide)⟩

/-- C8 counterexample: serving a counter `Read` issues *no* store write — the
handler emits exactly one message, the `read` RPC for the shared counter key
(the Read arm of `g-counter.rs` performs no uniquely-valued write to a private
per-node key, and the `WriteKvOk` arm is `todo!()`). -/
theorem read_no_write_counterexample :
    handleG gDemo gReadReq
      = some ({ id := some "n1", msgId := 6, unacknowledged := [gKvRead "n1" 5],
                requestMap := [(5, ("c2", 9, none))] }, [gKvRead "n1" 5])
    ∧ (gKvRead "n1" 5).body.inner = .readKv COUNTER
    ∧ ([gKvRead "n1" 5].filter (fun m => isWriteKv m.body.inner)) = [] := by decide

/-- C8 (amended): to serve a counter `Read` the node directly issues a `read`
RPC for the shared counter key to `seq-kv` (emitting no store write at all)
and records the requester; when the store's `ReadOk` for that request arrives
and its value parses, the node replies to the recorded client with the parsed
integer value. -/
theorem read_direct_confirm (st st2 : GNode)
    (nid nid2 csrc cdst s2 d2 client value : String)
    (mid v irt2 k : Nat) (rirt rid2 : Option Nat)
    (unack2 : List Message) (rmap2 : List (Nat × (String × Nat × Option Nat)))
    (hid : st.id = some nid)
    (hid2 : st2.id = some nid2)
    (hscan2 : ackScan (some k) st2.unacknowledged = some (unack2, true))
    (htake2 : alTake st2.requestMap k = some ((client, irt2, none), rmap2))
    (hval : parseU64 value = some v) :
    (handleG st { src := csrc, dst := cdst,
                  body := { id := some mid, inReplyTo := rirt, inner := .readMsg } }
      = some ({ st with
                  requestMap := alSet st.requestMap st.msgId (csrc, mid, none),
                  unacknowledged := st.unacknowledged ++ [gKvRead nid st.msgId],
                  msgId := st.msgId + 1 },
              [gKvRead nid st.msgId]))
    ∧ ([gKvRead nid st.msgId].filter (fun m => isWriteKv m.body.inner)) = []
    ∧ (handleG st2 { src := s2, dst := d2,
                     body := { id := rid2, inReplyTo := some k,
                               inner := .readOkKv value } }
      = some ({ st2 with unacknowledged := unack2, requestMap := rmap2,
                         msgId := st2.msgId + 1 },
              [{ src := nid2, dst := client,
                 body := { id := some st2.msgId, inReplyTo := some irt2,
                           inner := .readOkSingle v } }])) := by
  refine ⟨by simp [handleG, hid], by simp [gKvRead, isWriteKv], ?_⟩
  simp [handleG, hid2, hscan2, htake2, hval]

theorem alLookup_alModify_none {α β : Type} [DecidableEq α] {l : List (α × β)}
    {k k2 : α} (f : β → β) (h : alLookup l k2 = none) :
    alLookup (alModify l k f) k2 = none := by
  induction l with
  | nil => simp [alModify, alLookup]
  | cons p rest ih =>
    unfold alLookup at h
    unfold alModify
    by_cases hk : k = p.1
    · by_cases hk2 : k2 = p.1
      · simp [hk2] at h
      · simp [hk, hk2, alLookup] at h ⊢
        exact h
    · by_cases hk2 : k2 = p.1
      · simp [hk2] at h
      · simp [hk, hk2, alLookup] at h ⊢
        exact ih h

/-- C10: a `CommitOffsets` naming a key with no log-table entry silently skips
it: no log entry is created and the supplied offset is discarded (the log
table is unchanged), yet the node still replies `CommitOffsetsOk`; a later
`ListCommittedOffsets` of that key omits it, and a later `Send` to that key
creates its log afresh with `committed = 0` and assigns offset `0`. -/
theorem commit_unknown_key_skip_confirm (st : KNode) (nid client key : String)
    (cid cid2 cid3 o v : Nat)
    (hid : st.id = some nid)
    (habs : alLookup st.logs key = none) :
    (handleK st { src := client, dst := nid,
                  body := { id := some cid, inReplyTo := none,
                            inner := .commitOffsetsMsg [(key, o)] } }
      = some ({ st with msgId := st.msgId + 1 },
              [{ src := nid, dst := client,
                 body := { id := some st.msgId, inReplyTo := some cid,
                           inner := .commitOffsetsOk } }]))
    ∧ (handleK { st with msgId := st.msgId + 1 }
        { src := client, dst := nid,
          body := { id := some cid2, inReplyTo := none,
                    inner := .listCommittedOffsetsMsg [key] } }
      = some ({ st with msgId := st.msgId + 2 },
              [{ src := nid, dst := client,
                 body := { id := some (st.msgId + 1), inReplyTo := some cid2,
                           inner := .listCommittedOffsetsOk [] } }]))
    ∧ (handleK { st with msgId := st.msgId + 1 }
        { src := client, dst := nid,
          body := { id := some cid3, inReplyTo := none,
                    inner := .sendMsg key v } }
      = some ({ st with msgId := st.msgId + 2,
                        logs := alSet st.logs key
                          { nextOffset := 1, committed := 0, messages := [(0, v)] } },
              [{ src := nid, dst := client,
                 body := { id := some (st.msgId + 1), inReplyTo := some cid3,
                           inner := .sendOk 0 } }]))
    ∧ alLookup (alSet st.logs key
        { nextOffset := 1, committed := 0, messages := [(0, v)] }) key
      = some { nextOffset := 1, committed := 0, messages := [(0, v)] } := by
  refine ⟨?_, ?_, ?_, alLookup_alSet_self _ _ _⟩
  · simp [handleK, hid, alModify_absent _ habs]
  · simp [handleK, hid, habs]
  · simp [handleK, hid, habs, KLog.dflt]

/-- Witness for `commit_unknown_key_skip_confirm`: the key `"k9"` is absent
from a one-entry log table. -/
theorem commit_unknown_key_skip_confirm_witness :
    ({ id := some "n0", msgId := 3, unacknowledged := [],
       logs := [("k1", { nextOffset := 1, committed := 0,
                         messages := [(0, 5)] })] } : KNode).id = some "n0"
    ∧ alLookup ({ id := some "n0", msgId := 3, unacknowledged := [],
                  logs := [("k1", { nextOffset := 1, committed := 0,
                                    messages := [(0, 5)] })] } : KNode).logs "k9" = none
    ∧ ((handleK { id := some "n0", msgId := 3, unacknowledged := [],
                  logs := [("k1", { nextOffset := 1, committed := 0,
                                    messages := [(0, 5)] })] }
        { src := "c0", dst := "n0",
          body := { id := some 11, inReplyTo := none,
                    inner := .commitOffsetsMsg [("k9", 4)] } }).isSome = true) := by
  refine ⟨rfl, rfl, ?_⟩
  have h := commit_unknown_key_skip_confirm
    { id := some "n0", msgId := 3, unacknowledged := [],
      logs := [("k1", { nextOffset := 1, committed := 0, messages := [(0, 5)] })] }
    "n0" "c0" "k9" 11 12 13 4 6 rfl rfl
  rw [h.1]
  rfl

/-- C6: for a key present in the log table, `CommitOffsets` sets its
`committed` offset to the supplied value unconditionally and replies
`CommitOffsetsOk`; a subsequent `ListCommittedOffsets` of that key returns
exactly the supplied value; the write is last-write-wins with no monotonicity
check (a second commit with an arbitrary value `o2` — larger or smaller —
overwrites again); keys absent from the log table are omitted from the
`ListCommittedOffsets` reply. -/
theorem kafka_commit_list_confirm (st : KNode) (nid client key bad : String)
    (cid cid2 cid3 cid4 o o2 : Nat) (l : KLog)
    (hid : st.id = some nid)
    (hkey : alLookup st.logs key = some l)
    (hbad : alLookup st.logs bad = none) :
    (handleK st { src := client, dst := nid,
                  body := { id := some cid, inReplyTo := none,
                            inner := .commitOffsetsMsg [(key, o)] } }
      = some ({ st with logs := alModify st.logs key (fun lg => { lg with committed := o }),
                        msgId := st.msgId + 1 },
              [{ src := nid, dst := client,
                 body := { id := some st.msgId, inReplyTo := some cid,
                           inner := .commitOffsetsOk } }]))
    ∧ alLookup (alModify st.logs key (fun lg => { lg with committed := o })) key
      = some { l with committed := o }
    ∧ (handleK { st with logs := alModify st.logs key (fun lg => { lg with committed := o }),
                         msgId := st.msgId + 1 }
        { src := client, dst := nid,
          body := { id := some cid2, inReplyTo := none,
                    inner := .listCommittedOffsetsMsg [key] } }
      = some ({ st with logs := alModify st.logs key (fun lg => { lg with committed := o }),
                        msgId := st.msgId + 2 },
              [{ src := nid, dst := client,
                 body := { id := some (st.msgId + 1), inReplyTo := some cid2,
                           inner := .listCommittedOffsetsOk [(key, o)] } }]))
    ∧ (handleK { st with logs := alModify st.logs key (fun lg => { lg with committed := o }),
                         msgId := st.msgId + 1 }
        { src := client, dst := nid,
          body := { id := some cid3, inReplyTo := none,
                    inner := .commitOffsetsMsg [(key, o2)] } }
      = some ({ st with logs := alModify
                          (alModify st.logs key (fun lg => { lg with committed := o }))
                          key (fun lg => { lg with committed := o2 }),
                        msgId := st.msgId + 2 },
              [{ src := nid, dst := client,
                 body := { id := some (st.msgId + 1), inReplyTo := some cid3,
                           inner := .commitOffsetsOk } }]))
    ∧ alLookup (alModify
        (alModify st.logs key (fun lg => { lg with committed := o }))
        key (fun lg => { lg with committed := o2 })) key
      = some { l with committed := o2 }
    ∧ (handleK { st with logs := alModify st.logs key (fun lg => { lg with committed := o }),
                         msgId := st.msgId + 1 }
        { src := client, dst := nid,
          body := { id := some cid4, inReplyTo := none,
                    inner := .listCommittedOffsetsMsg [bad] } }
      = some ({ st with logs := alModify st.logs key (fun lg => { lg with committed := o }),
                        msgId := st.msgId + 2 },
              [{ src := nid, dst := client,
                 body := { id := some (st.msgId + 1), inReplyTo := some cid4,
                           inner := .listCommittedOffsetsOk [] } }])) := by
  refine ⟨by simp [handleK, hid], alLookup_alModify_self _ hkey, ?_, ?_, ?_, ?_⟩
  · simp [handleK, hid, alLookup_alModify_self _ hkey]
  · simp [handleK, hid]
  · have h1 := alLookup_alModify_self (fun lg => { lg with committed := o }) hkey
    have h2 := alLookup_alModify_self (fun lg => { lg with committed := o2 }) h1
    exact h2
  · simp [handleK, hid, alLookup_alModify_none _ hbad]

/-- Witness for `kafka_commit_list_confirm`: commit offset `9` for the key
`"k1"` of a one-entry log table, with `"k9"` the absent key. -/
theorem kafka_commit_list_confirm_witness :
    ((handleK { id := some "n0", msgId := 3, unacknowledged := [],
                logs := [("k1", { nextOffset := 1, committed := 0,
                                  messages := [(0, 5)] })] }
      { src := "c0", dst := "n0",
        body := { id := some 11, inReplyTo := none,
                  inner := .commitOffsetsMsg [("k1", 9)] } }).isSome = true)
    ∧ alLookup (alModify
        ([("k1", ({ nextOffset := 1, committed := 0, messages := [(0, 5)] } : KLog))])
        "k1" (fun lg => { lg with committed := 9 })) "k1"
      = some { nextOffset := 1, committed := 9, messages := [(0, 5)] } := by
  have h := kafka_commit_list_confirm
    { id := some "n0", msgId := 3, unacknowledged := [],
      logs := [("k1", { nextOffset := 1, committed := 0, messages := [(0, 5)] })] }
    "n0" "c0" "k1" "k9" 11 12 13 14 9 2
    { nextOffset := 1, committed := 0, messages := [(0, 5)] }
    rfl rfl rfl
  exact ⟨by rw [h.1]; rfl, h.2.1⟩

theorem wflog_range' {l : KLog} (h : WFLog l) :
    l.messages.map Prod.fst = List.range' 0 l.messages.length := by
  have hlen : l.messages.length = l.nextOffset := by
    simpa using congrArg List.length h
  rw [hlen, h, List.range_eq_range']

theorem filter_ge_eq_self (o : Nat) : ∀ (msgs : List (Nat × Nat)) (c : Nat), o ≤ c →
    msgs.map Prod.fst = List.range' c msgs.length →
    msgs.filter (fun q => decide (o ≤ q.1)) = msgs := by
  intro msgs
  induction msgs with
  | nil => intro c _ _; rfl
  | cons a rest ih =>
    intro c hoc hmap
    rw [List.map_cons, List.length_cons, List.range'_succ] at hmap
    simp only [List.cons.injEq] at hmap
    obtain ⟨ha, hrest⟩ := hmap
    rw [List.filter_cons]
    have hyes : o ≤ a.1 := by omega
    simp [hyes, ih (c + 1) (by omega) hrest]

theorem dropWhile_eq_filter_ascending (o : Nat) : ∀ (msgs : List (Nat × Nat)) (c : Nat),
    msgs.map Prod.fst = List.range' c msgs.length →
    msgs.dropWhile (fun q => decide (q.1 < o))
      = msgs.filter (fun q => decide (o ≤ q.1)) := by
  intro msgs
  induction msgs with
  | nil => intro c _; rfl
  | cons a rest ih =>
    intro c hmap
    rw [List.map_cons, List.length_cons, List.range'_succ] at hmap
    simp only [List.cons.injEq] at hmap
    obtain ⟨ha, hrest⟩ := hmap
    by_cases hco : c < o
    · rw [List.dropWhile_cons, List.filter_cons]
      have hno : ¬ o ≤ a.1 := by omega
      have hlt : a.1 < o := by omega
      simp [hlt, hno, ih (c + 1) hrest]
    · rw [List.dropWhile_cons, List.filter_cons]
      have hyes : o ≤ a.1 := by omega
      have hnlt : ¬ a.1 < o := by omega
      simp [hnlt, hyes, filter_ge_eq_self o rest (c + 1) (by omega) hrest]

theorem handleK_wf {st st' : KNode} {msg : Message} {out : List Message}
    (hwf : WFLogs st) (h : handleK st msg = some (st', out)) : WFLogs st' := by
  cases hm : msg.body.inner with
  | initMsg nodeId nodeIds =>
    cases hid : st.id with
    | some _ => simp [handleK, hm, hid] at h
    | none =>
      simp [handleK, hm, hid] at h
      rw [← h.1]
      exact hwf
  | sendMsg key m =>
    cases hid : st.id with
    | none => simp [handleK, hm, hid] at h
    | some nid =>
      simp [handleK, hm, hid] at h
      rw [← h.1]
      intro p hp
      rcases alSet_mem hp with hmem | heq
      · exact hwf p hmem
      · subst heq
        show WFLog _
        cases hcur : alLookup st.logs key with
        | none =>
          simp [hcur, KLog.dflt]
          unfold WFLog
          simp [WFLog, KLog.dflt, List.range_succ]
        | some l =>
          have hl : WFLog l := hwf (key, l) (alLookup_mem hcur)
          simp [hcur]
          unfold WFLog at hl ⊢
          simp [hl, List.range_succ]
  | pollMsg offsets =>
    cases hid : st.id with
    | none => simp [handleK, hm, hid] at h
    | some nid =>
      simp [handleK, hm, hid] at h
      rw [← h.1]
      exact hwf
  | commitOffsetsMsg offsets =>
    cases hid : st.id with
    | none => simp [handleK, hm, hid] at h
    | some nid =>
      simp [handleK, hm, hid] at h
      rw [← h.1]
      show WFLogs _
      have hfold : ∀ (os : List (String × Nat)) (lg : List (String × KLog)),
          (∀ p ∈ lg, WFLog p.2) →
          ∀ p ∈ os.foldl
            (fun acc q => alModify acc q.1 (fun l => { l with committed := q.2 })) lg,
          WFLog p.2 := by
        intro os
        induction os with
        | nil => intro lg hlg p hp; exact hlg p hp
        | cons q rest ihq =>
          intro lg hlg p hp
          refine ihq _ ?_ p hp
          intro r hr
          rcases alModify_mem hr with hmem | ⟨r', hr', _, hreq⟩
          · exact hlg r hmem
          · subst hreq
            exact hlg r' hr'
      exact hfold offsets st.logs hwf
  | listCommittedOffsetsMsg keys =>
    cases hid : st.id with
    | none => simp [handleK, hm, hid] at h
    | some nid =>
      simp [handleK, hm, hid] at h
      rw [← h.1]
      exact hwf
  | errorMsg code text => simp [handleK, hm] at h
  | initOk => simp [handleK, hm] at h
  | echoMsg e => simp [handleK, hm] at h
  | echoOk e => simp [handleK, hm] at h
  | generate => simp [handleK, hm] at h
  | generateOk g => simp [handleK, hm] at h
  | broadcastMsg v => simp [handleK, hm] at h
  | broadcastOk => simp [handleK, hm] at h
  | readMsg => simp [handleK, hm] at h
  | readOkArray v => simp [handleK, hm] at h
  | readOkSingle v => simp [handleK, hm] at h
  | readOkKv v => simp [handleK, hm] at h
  | topologyMsg t => simp [handleK, hm] at h
  | topologyOk => simp [handleK, hm] at h
  | batchBroadcast v => simp [handleK, hm] at h
  | addMsg d => simp [handleK, hm] at h
  | addOk => simp [handleK, hm] at h
  | readKv k => simp [handleK, hm] at h
  | writeKv k v => simp [handleK, hm] at h
  | writeKvOk => simp [handleK, hm] at h
  | casKv a b c d => simp [handleK, hm] at h
  | casKvOk => simp [handleK, hm] at h
  | sendOk v => simp [handleK, hm] at h
  | pollOk v => simp [handleK, hm] at h
  | commitOffsetsOk => simp [handleK, hm] at h
  | listCommittedOffsetsOk v => simp [handleK, hm] at h

theorem runK_wf : ∀ (msgs : List Message) (st st' : KNode), WFLogs st →
    runK st msgs = some st' → WFLogs st' := by
  intro msgs
  induction msgs with
  | nil =>
    intro st st' hwf h
    simp [runK] at h
    rw [← h]
    exact hwf
  | cons m rest ih =>
    intro st st' hwf h
    unfold runK at h
    cases hh : handleK st m with
    | none => rw [hh] at h; simp at h
    | some p =>
      rw [hh] at h
      exact ih p.1 st' (handleK_wf hwf (by rw [hh])) h

/-- The C5 demo trace: init, two sends to `k1`, then three polls. -/
def kDemoTrace : List Message :=
  [ { src := "c0", dst := "n0",
      body := { id := some 1, inReplyTo := none, inner := .initMsg "n0" ["n0"] } },
    { src := "c1", dst := "n0",
      body := { id := some 1, inReplyTo := none, inner := .sendMsg "k1" 7 } },
    { src := "c1", dst := "n0",
      body := { id := some 2, inReplyTo := none, inner := .sendMsg "k1" 9 } },
    { src := "c1", dst := "n0",
      body := { id := some 3, inReplyTo := none, inner := .pollMsg [("k1", 0)] } },
    { src := "c1", dst := "n0",
      body := { id := some 4, inReplyTo := none, inner := .pollMsg [("k1", 2)] } },
    { src := "c1", dst := "n0",
      body := { id := some 5, inReplyTo := none, inner := .pollMsg [("k2", 0)] } } ]

/-- The node state after `kDemoTrace`. -/
def kDemoFinal : KNode :=
  { id := some "n0", msgId := 7, unacknowledged := [],
    logs := [("k1", { nextOffset := 2, committed := 0, messages := [(0, 7), (1, 9)] })] }

/-- The messages emitted along `kDemoTrace`: the two sends are assigned
offsets 0 and 1; `poll {k1: 0}` returns both entries, `poll {k1: 2}` returns
an empty list for `k1`, and `poll {k2: 0}` has no entry for the never-sent
key `k2`. -/
def kDemoOut : List Message :=
  [ { src := "n0", dst := "c0",
      body := { id := some 1, inReplyTo := some 1, inner := .initOk } },
    { src := "n0", dst := "c1",
      body := { id := some 2, inReplyTo := some 1, inner := .sendOk 0 } },
    { src := "n0", dst := "c1",
      body := { id := some 3, inReplyTo := some 2, inner := .sendOk 1 } },
    { src := "n0", dst := "c1",
      body := { id := some 4, inReplyTo := some 3,
                inner := .pollOk [("k1", [(0, 7), (1, 9)])] } },
    { src := "n0", dst := "c1",
      body := { id := some 5, inReplyTo := some 4, inner := .pollOk [("k1", [])] } },
    { src := "n0", dst := "c1",
      body := { id := some 6, inReplyTo := some 5, inner := .pollOk [] } } ]

/-- C5: (i) every log table reachable from the initial kafka node state is
well-formed (offsets are exactly `0, 1, …` in order); (ii) for a well-formed
log present under a requested key, `Poll` returns exactly the entries with
offset ≥ the requested offset, truncated to at most 20; (iii) a requested key
absent from the log table gets no entry in the reply; (iv) concretely, from
the empty log, `send(k1,7)` then `send(k1,9)` are assigned offsets 0 and 1,
`poll {k1: 0}` returns `[(0,7),(1,9)]`, `poll {k1: 2}` returns `[]` for `k1`,
and `poll {k2: 0}` — a key never sent to — yields no entry for `k2`. -/
theorem kafka_send_poll_confirm (st stR : KNode) (nid client key unknownKey : String)
    (o cid : Nat) (l : KLog) (msgs : List Message)
    (hrun : runK kInit msgs = some stR)
    (hid : st.id = some nid)
    (hkey : alLookup st.logs key = some l)
    (hwfl : WFLog l)
    (habs : alLookup st.logs unknownKey = none) :
    WFLogs stR
    ∧ (handleK st { src := client, dst := nid,
                    body := { id := some cid, inReplyTo := none,
                              inner := .pollMsg [(key, o)] } }
        = some ({ st with msgId := st.msgId + 1 },
                [{ src := nid, dst := client,
                   body := { id := some st.msgId, inReplyTo := some cid,
                             inner := .pollOk
                               [(key, (l.messages.filter
                                   (fun q => decide (o ≤ q.1))).take 20)] } }]))
    ∧ (handleK st { src := client, dst := nid,
                    body := { id := some cid, inReplyTo := none,
                              inner := .pollMsg [(unknownKey, o)] } }
        = some ({ st with msgId := st.msgId + 1 },
                [{ src := nid, dst := client,
                   body := { id := some st.msgId, inReplyTo := some cid,
                             inner := .pollOk [] } }]))
    ∧ runKOut kInit kDemoTrace = some (kDemoFinal, kDemoOut) := by
  refine ⟨?_, ?_, ?_, by decide⟩
  · refine runK_wf msgs kInit stR ?_ hrun
    intro p hp
    simp [kInit] at hp
  · have hdw := dropWhile_eq_filter_ascending o l.messages 0 (wflog_range' hwfl)
    simp [handleK, hid, hkey, hdw]
  · simp [handleK, hid, habs]

/-- Witness for `kafka_send_poll_confirm` at the post-trace node `kDemoFinal`,
key `k1`, absent key `k2`, requested offset 1. -/
theorem kafka_send_poll_confirm_witness :
    runK kInit [] = some kInit
    ∧ kDemoFinal.id = some "n0"
    ∧ alLookup kDemoFinal.logs "k1"
        = some { nextOffset := 2, committed := 0, messages := [(0, 7), (1, 9)] }
    ∧ WFLog { nextOffset := 2, committed := 0, messages := [(0, 7), (1, 9)] }
    ∧ alLookup kDemoFinal.logs "k2" = none
    ∧ (WFLogs kInit
       ∧ (handleK kDemoFinal
            { src := "c1", dst := "n0",
              body := { id := some 8, inReplyTo := none,
                        inner := .pollMsg [("k1", 1)] } }
          = some ({ kDemoFinal with msgId := kDemoFinal.msgId + 1 },
                  [{ src := "n0", dst := "c1",
                     body := { id := some kDemoFinal.msgId, inReplyTo := some 8,
                               inner := .pollOk
                                 [("k1", (([(0, 7), (1, 9)] : List (Nat × Nat)).filter
                                     (fun q => decide (1 ≤ q.1))).take 20)] } }]))
       ∧ (handleK kDemoFinal
            { src := "c1", dst := "n0",
              body := { id := some 8, inReplyTo := none,
                        inner := .pollMsg [("k2", 1)] } }
          = some ({ kDemoFinal with msgId := kDemoFinal.msgId + 1 },
                  [{ src := "n0", dst := "c1",
                     body := { id := some kDemoFinal.msgId, inReplyTo := some 8,
                               inner := .pollOk [] } }]))
       ∧ runKOut kInit kDemoTrace = some (kDemoFinal, kDemoOut)) :=
  ⟨rfl, rfl, rfl, by unfold WFLog; rfl, rfl,
    kafka_send_poll_confirm kDemoFinal kInit "n0" "c1" "k1" "k2" 1 8
      { nextOffset := 2, committed := 0, messages := [(0, 7), (1, 9)] } []
      rfl rfl rfl (by unfold WFLog; rfl) rfl⟩

/-- Witness for `read_direct_confirm`: a fresh node serving a client `Read`,
and a node with the matching KV `ReadOk` (value `"42"`) in flight. -/
theorem read_direct_confirm_witness :
    gDemo.id = some "n1"
    ∧ ({ id := some "n1", msgId := 6, unacknowledged := [gKvRead "n1" 3],
         requestMap := [(3, ("c2", 9, none))] } : GNode).id = some "n1"
    ∧ ackScan (some 3) [gKvRead "n1" 3] = some ([], true)
    ∧ alTake [(3, (("c2" : String), (9 : Nat), (none : Option Nat)))] 3
        = some (("c2", 9, none), [])
    ∧ parseU64 "42" = some 42
    ∧ ((handleG gDemo { src := "c2", dst := "n1",
                        body := { id := some 9, inReplyTo := none, inner := .readMsg } }
        = some ({ gDemo with
                    requestMap := alSet gDemo.requestMap gDemo.msgId ("c2", 9, none),
                    unacknowledged := gDemo.unacknowledged ++ [gKvRead "n1" gDemo.msgId],
                    msgId := gDemo.msgId + 1 },
                [gKvRead "n1" gDemo.msgId]))
      ∧ ([gKvRead "n1" gDemo.msgId].filter (fun m => isWriteKv m.body.inner)) = []
      ∧ (handleG { id := some "n1", msgId := 6, unacknowledged := [gKvRead "n1" 3],
                   requestMap := [(3, ("c2", 9, none))] }
          { src := "seq-kv", dst := "n1",
            body := { id := some 99, inReplyTo := some 3, inner := .readOkKv "42" } }
        = some ({ ({ id := some "n1", msgId := 6,
                     unacknowledged := [gKvRead "n1" 3],
                     requestMap := [(3, ("c2", 9, none))] } : GNode) with
                    unacknowledged := [], requestMap := [], msgId := 6 + 1 },
                [{ src := "n1", dst := "c2",
                   body := { id := some 6, inReplyTo := some 9,
                             inner := .readOkSingle 42 } }]))) :=
  ⟨rfl, rfl, by decide, by decide, by decide,
    read_direct_confirm gDemo
      { id := some "n1", msgId := 6, unacknowledged := [gKvRead "n1" 3],
        requestMap := [(3, ("c2", 9, none))] }
      "n1" "n1" "c2" "n1" "seq-kv" "n1" "c2" "42" 9 42 9 3 none (some 99) [] []
      rfl rfl (by decide) (by decide) (by decide)⟩

theorem drop_take_eq_range'_map (d : String) :
    ∀ (m s : Nat) (l : List String), s + m ≤ l.length →
    (l.drop s).take m = (List.range' s m).map (fun a => l.getD a d) := by
  intro m
  induction m with
  | zero => intro s l _; simp
  | succ m ih =>
    intro s l hsm
    have hs : s < l.length := by omega
    rw [List.drop_eq_getElem_cons hs, List.range'_succ]
    simp only [List.take_succ_cons, List.map_cons]
    have hgd : l.getD s d = l[s] := by
      rw [List.getD_eq_getElem?_getD, List.getElem?_eq_getElem hs]
      rfl
    rw [hgd, ih (s + 1) l (by omega)]

theorem parentSlice_zero (nodes : List String) : parentSlice nodes 0 = [] := by
  simp [parentSlice]

theorem parentSlice_nonroot (nodes : List String) (i : Nat) (hi0 : i ≠ 0)
    (hi : i < nodes.length) :
    parentSlice nodes i = [nodes.getD ((i - 1) / fanout) ""] := by
  unfold parentSlice
  have hp : (i - 1) / fanout < nodes.length := by
    have h1 : (i - 1) / fanout ≤ i - 1 := Nat.div_le_self _ _
    omega
  rw [if_pos hi0, List.drop_eq_getElem_cons hp]
  have hgd : nodes.getD ((i - 1) / fanout) "" = nodes[(i - 1) / fanout] := by
    rw [List.getD_eq_getElem?_getD, List.getElem?_eq_getElem hp]
    rfl
  rw [hgd]
  rfl

/-- C2: the Topology arm's self-built structure is a tree.  For any sorted
node list of length `n ≥ 1` and any indices `i, j < n`: the neighbor list has
at most `fanout + 1 = 5` entries; there are at most `fanout = 4` children;
index 0 is the only index with no parent (exactly one root); every non-root
`i` has exactly one parent, the node at index `⌊(i−1)/4⌋`; the child slice of
`i` is exactly the nodes at indices `[4i+1, min(4i+5, n))`; the parent index
decreases (so parent links are acyclic and reach the root); and `j` lies in
`i`'s child-index window iff `j` is a non-root whose parent index is `i`
(so every non-root is the child of exactly one node). -/
theorem topology_tree_confirm (nodes : List String) (i j : Nat)
    (hn : 1 ≤ nodes.length) (hi : i < nodes.length) (hj : j < nodes.length) :
    (neighborsOf nodes i).length ≤ 5
    ∧ (childSlice nodes i).length ≤ 4
    ∧ (List.range nodes.length).filter (fun a => (parentSlice nodes a).isEmpty) = [0]
    ∧ (i ≠ 0 → parentSlice nodes i = [nodes.getD ((i - 1) / fanout) ""])
    ∧ parentSlice nodes 0 = []
    ∧ childSlice nodes i
        = (List.range' (fanout * i + 1)
            (min (fanout * i + 1 + fanout) nodes.length - (fanout * i + 1))).map
            (fun a => nodes.getD a "")
    ∧ (i ≠ 0 → (i - 1) / fanout < i)
    ∧ ((fanout * i + 1 ≤ j ∧ j < min (fanout * i + 1 + fanout) nodes.length)
        ↔ (j ≠ 0 ∧ (j - 1) / fanout = i)) := by
  have hchild : ∀ a : Nat, (childSlice nodes a).length ≤ 4 := by
    intro a
    unfold childSlice
    by_cases hca : fanout * a + 1 < nodes.length
    · rw [if_pos hca]
      rw [List.length_take, List.length_drop]
      simp only [fanout] at *
      omega
    · rw [if_neg hca]
      simp
  have hparlen : ∀ a : Nat, (parentSlice nodes a).length ≤ 1 := by
    intro a
    unfold parentSlice
    by_cases ha : a ≠ 0
    · rw [if_pos ha, List.length_take]
      omega
    · rw [if_neg ha]
      simp
  refine ⟨?_, hchild i, ?_, fun h => parentSlice_nonroot nodes i h hi, parentSlice_zero nodes,
          ?_, ?_, ?_⟩
  · unfold neighborsOf
    rw [List.length_append]
    have := hchild i
    have := hparlen i
    omega
  · have hrng : List.range nodes.length = 0 :: List.range' 1 (nodes.length - 1) := by
      conv_lhs => rw [List.range_eq_range',
        show nodes.length = (nodes.length - 1) + 1 by omega]
      rw [List.range'_succ]
    rw [hrng, List.filter_cons]
    have h0 : (parentSlice nodes 0).isEmpty = true := by
      rw [parentSlice_zero]
      rfl
    rw [if_pos (by simp [h0])]
    have hrest : (List.range' 1 (nodes.length - 1)).filter
        (fun a => (parentSlice nodes a).isEmpty) = [] := by
      apply List.filter_eq_nil_iff.mpr
      intro a ha
      have hmem := List.mem_range'_1.mp ha
      have hane : a ≠ 0 := by omega
      have halt : a < nodes.length := by omega
      rw [parentSlice_nonroot nodes a hane halt]
      simp
    rw [hrest]
  · unfold childSlice
    by_cases hca : fanout * i + 1 < nodes.length
    · rw [if_pos hca]
      apply drop_take_eq_range'_map
      simp only [fanout] at *
      omega
    · rw [if_neg hca]
      have : min (fanout * i + 1 + fanout) nodes.length - (fanout * i + 1) = 0 := by
        simp only [fanout] at *
        omega
      rw [this]
      simp
  · intro h
    have h1 : (i - 1) / fanout ≤ i - 1 := Nat.div_le_self _ _
    simp only [fanout] at *
    omega
  · simp only [fanout]
    constructor
    · intro ⟨h1, h2⟩
      constructor
      · omega
      · omega
    · intro ⟨h1, h2⟩
      omega

/-- A concrete sorted six-node list for the topology witness. -/
def cNodes : List String := ["n0", "n1", "n2", "n3", "n4", "n5"]

/-- Witness for `topology_tree_confirm` at `cNodes`, `i = 1`, `j = 5`. -/
theorem topology_tree_confirm_witness :
    1 ≤ cNodes.length ∧ 1 < cNodes.length ∧ 5 < cNodes.length
    ∧ ((neighborsOf cNodes 1).length ≤ 5
      ∧ (childSlice cNodes 1).length ≤ 4
      ∧ (List.range cNodes.length).filter (fun a => (parentSlice cNodes a).isEmpty) = [0]
      ∧ (1 ≠ 0 → parentSlice cNodes 1 = [cNodes.getD ((1 - 1) / fanout) ""])
      ∧ parentSlice cNodes 0 = []
      ∧ childSlice cNodes 1
          = (List.range' (fanout * 1 + 1)
              (min (fanout * 1 + 1 + fanout) cNodes.length - (fanout * 1 + 1))).map
              (fun a => cNodes.getD a "")
      ∧ (1 ≠ 0 → (1 - 1) / fanout < 1)
      ∧ ((fanout * 1 + 1 ≤ 5 ∧ 5 < min (fanout * 1 + 1 + fanout) cNodes.length)
          ↔ (5 ≠ 0 ∧ (5 - 1) / fanout = 1))) :=
  ⟨by decide, by decide, by decide,
    topology_tree_confirm cNodes 1 5 (by decide) (by decide) (by decide)⟩

theorem hsInsert_mono {x v : Nat} {s : List Nat} (hv : v ∈ s) : v ∈ (hsInsert x s).1 := by
  unfold hsInsert
  by_cases hx : x ∈ s <;> simp [hx, hv]

theorem hsInsert_already {x : Nat} {s : List Nat} (hx : x ∈ s) :
    hsInsert x s = (s, false) := by
  simp [hsInsert, hx]

theorem beAbsorb_mono (neighbors : List String) (sender : String) :
    ∀ (vs : List Nat) (acc : List Nat × List (String × List Nat)) (v : Nat),
    v ∈ acc.1 → v ∈ (beAbsorb neighbors sender acc vs).1 := by
  intro vs
  induction vs with
  | nil => intro acc v hv; exact hv
  | cons m rest ih =>
    intro acc v hv
    unfold beAbsorb
    exact ih _ v (hsInsert_mono hv)

theorem beAbsorb_all_known (neighbors : List String) (sender : String) :
    ∀ (vs : List Nat) (acc : List Nat × List (String × List Nat)),
    (∀ v ∈ vs, v ∈ acc.1) → beAbsorb neighbors sender acc vs = acc := by
  intro vs
  induction vs with
  | nil => intro acc _; rfl
  | cons m rest ih =>
    intro acc hall
    have hm : m ∈ acc.1 := hall m (List.mem_cons_self _ _)
    unfold beAbsorb
    rw [hsInsert_already hm]
    exact ih acc (fun v hv => hall v (List.mem_cons_of_mem _ hv))

theorem handleBE_known_mono {st st' : BENode} {msg : Message} {out : List Message}
    (h : handleBE st msg = some (st', out)) : ∀ v ∈ st.known, v ∈ st'.known := by
  intro v hv
  cases hm : msg.body.inner
  case initMsg a b =>
    cases hid : st.id
    · simp [handleBE, hm, hid] at h
      rw [← h.1]
      exact hv
    · simp [handleBE, hm, hid] at h
  case broadcastMsg m =>
    simp [handleBE, hm] at h
    rw [← h.1]
    exact hsInsert_mono hv
  case batchBroadcast vs =>
    simp [handleBE, hm] at h
    rw [← h.1]
    exact beAbsorb_mono st.neighbors msg.src vs (st.known, st.nextBatch) v hv
  case topologyMsg t =>
    cases hid : st.id
    · simp [handleBE, hm, hid] at h
    · cases hidx : idxOf? (by assumption : String) st.nodes
      all_goals simp [handleBE, hm, hid, hidx] at h
      rw [← h.1]
      exact hv
  case readMsg =>
    simp [handleBE, hm] at h
    rw [← h.1]
    exact hv
  case broadcastOk =>
    cases hscan : ackScan msg.body.inReplyTo st.unacknowledged
    · simp [handleBE, hm, hscan] at h
    · simp [handleBE, hm, hscan] at h
      rw [← h.1]
      exact hv
  all_goals simp [handleBE, hm] at h

theorem stepBE_known_mono {st st' : BENode} {e : BEEvent} {out : List Message}
    (h : stepBE st e = some (st', out)) : ∀ v ∈ st.known, v ∈ st'.known := by
  intro v hv
  cases e with
  | deliver m => exact handleBE_known_mono h v hv
  | battick =>
    unfold stepBE batchTick at h
    cases hb : st.nextBatch with
    | nil =>
      rw [hb] at h
      simp at h
      rw [← h.1]
      exact hv
    | cons q rest =>
      rw [hb] at h
      cases hid : st.id with
      | none => simp [hid] at h
      | some nid =>
        simp [hid] at h
        rw [← h.1]
        exact hv
  | retrytick =>
    simp [stepBE] at h
    rw [← h.1]
    exact hv

theorem handleB_known_mono {st st' : BNode} {msg : Message} {out : List Message}
    (h : handleB st msg = some (st', out)) : ∀ v ∈ st.known, v ∈ st'.known := by
  intro v hv
  cases hm : msg.body.inner
  case initMsg a b =>
    cases hid : st.id
    · simp [handleB, hm, hid] at h
      rw [← h.1]
      exact hv
    · simp [handleB, hm, hid] at h
  case broadcastMsg m =>
    simp only [handleB, hm] at h
    by_cases hc : ((hsInsert m st.known).2 = true
        ∧ st.neighbors.filter (fun n => n ≠ msg.src) ≠ [])
    · rw [if_pos hc] at h
      cases hid : st.id
      · rw [hid] at h
        simp at h
      · rw [hid] at h
        simp at h
        rw [← h.1]
        exact hsInsert_mono hv
    · rw [if_neg hc] at h
      simp at h
      rw [← h.1]
      exact hsInsert_mono hv
  case topologyMsg t =>
    cases hid : st.id
    · simp [handleB, hm, hid] at h
    · cases hidx : idxOf? (by assumption : String) st.nodes
      all_goals simp [handleB, hm, hid, hidx] at h
      rw [← h.1]
      exact hv
  case readMsg =>
    simp [handleB, hm] at h
    rw [← h.1]
    exact hv
  case broadcastOk =>
    cases hscan : ackScan msg.body.inReplyTo st.unacknowledged
    · simp [handleB, hm, hscan] at h
    · simp [handleB, hm, hscan] at h
      rw [← h.1]
      exact hv
  all_goals simp [handleB, hm] at h

/-- C7: the known set is monotone non-decreasing under every `broadcast-e.rs`
main-loop step (message delivery, batch tick, retry tick) and every
`broadcast.rs` handler invocation; moreover delivering a `batchBroadcast`
whose values are all already known (`broadcast-e.rs`), or a `Broadcast` whose
value is already known (`broadcast.rs`), leaves the known set unchanged —
duplicate delivery is idempotent with respect to the known set. -/
theorem known_set_monotone_confirm :
    (∀ (st st' : BENode) (e : BEEvent) (out : List Message),
      stepBE st e = some (st', out) → ∀ v ∈ st.known, v ∈ st'.known)
    ∧ (∀ (st st' : BNode) (msg : Message) (out : List Message),
      handleB st msg = some (st', out) → ∀ v ∈ st.known, v ∈ st'.known)
    ∧ (∀ (st st' : BENode) (msg : Message) (vs : List Nat) (out : List Message),
      msg.body.inner = .batchBroadcast vs → (∀ v ∈ vs, v ∈ st.known) →
      handleBE st msg = some (st', out) → st'.known = st.known)
    ∧ (∀ (st st' : BNode) (msg : Message) (m : Nat) (out : List Message),
      msg.body.inner = .broadcastMsg m → m ∈ st.known →
      handleB st msg = some (st', out) → st'.known = st.known) := by
  refine ⟨fun st st' e out h => stepBE_known_mono h,
          fun st st' msg out h => handleB_known_mono h, ?_, ?_⟩
  · intro st st' msg vs out hm hall h
    simp [handleBE, hm] at h
    rw [← h.1]
    show (beAbsorb st.neighbors msg.src (st.known, st.nextBatch) vs).1 = st.known
    rw [beAbsorb_all_known st.neighbors msg.src vs (st.known, st.nextBatch) hall]
  · intro st st' msg m out hm hmem h
    simp only [handleB, hm] at h
    rw [hsInsert_already hmem] at h
    simp at h
    rw [← h.1]

/-- A concrete `broadcast-e.rs` node knowing value 5 for the C7 witness. -/
def wBE : BENode :=
  { id := some "n0", msgId := 3, known := [5], neighbors := ["n1"],
    nodes := ["n0", "n1"], nextBatch := [], unacknowledged := [] }

/-- A concrete `broadcast.rs` node knowing value 5 for the C7 witness. -/
def wB : BNode :=
  { id := some "n0", msgId := 3, known := [5], neighbors := ["n1"],
    nodes := ["n0", "n1"], unacknowledged := [] }

/-- Witness for `known_set_monotone_confirm`: a retry tick keeps value 5
known; a `broadcast.rs` read keeps value 5 known; redelivering
`batchBroadcast [5]` and `Broadcast 5` to nodes already knowing 5 leaves
their known sets unchanged. -/
theorem known_set_monotone_confirm_witness :
    stepBE wBE .retrytick = some (wBE, wBE.unacknowledged)
    ∧ (5 : Nat) ∈ wBE.known
    ∧ handleB wB { src := "c9", dst := "n0",
                   body := { id := some 9, inReplyTo := none, inner := .readMsg } }
        = some ({ wB with msgId := 4 },
                [{ src := "n0", dst := "c9",
                   body := { id := some 3, inReplyTo := some 9,
                             inner := .readOkArray [5] } }])
    ∧ (5 : Nat) ∈ ({ wB with msgId := 4 } : BNode).known
    ∧ handleBE wBE { src := "n1", dst := "n0",
                     body := { id := some 9, inReplyTo := none,
                               inner := .batchBroadcast [5] } }
        = some ({ wBE with msgId := 4 },
                [{ src := "n0", dst := "n1",
                   body := { id := some 3, inReplyTo := some 9,
                             inner := .broadcastOk } }])
    ∧ ({ wBE with msgId := 4 } : BENode).known = wBE.known
    ∧ handleB wB { src := "c9", dst := "n0",
                   body := { id := some 9, inReplyTo := none,
                             inner := .broadcastMsg 5 } }
        = some ({ wB with msgId := 4 },
                [{ src := "n0", dst := "c9",
                   body := { id := some 3, inReplyTo := some 9,
                             inner := .broadcastOk } }])
    ∧ ({ wB with msgId := 4 } : BNode).known = wB.known :=
  ⟨by decide, known_set_monotone_confirm.1 wBE wBE .retrytick wBE.unacknowledged
      (by decide) 5 (by decide),
   by decide, known_set_monotone_confirm.2.1 wB ({ wB with msgId := 4 })
      { src := "c9", dst := "n0",
        body := { id := some 9, inReplyTo := none, inner := .readMsg } }
      [{ src := "n0", dst := "c9",
         body := { id := some 3, inReplyTo := some 9, inner := .readOkArray [5] } }]
      (by decide) 5 (by decide),
   by decide, known_set_monotone_confirm.2.2.1 wBE ({ wBE with msgId := 4 })
      { src := "n1", dst := "n0",
        body := { id := some 9, inReplyTo := none, inner := .batchBroadcast [5] } }
      [5]
      [{ src := "n0", dst := "n1",
         body := { id := some 3, inReplyTo := some 9, inner := .broadcastOk } }]
      rfl (by decide) (by decide),
   by decide, known_set_monotone_confirm.2.2.2 wB ({ wB with msgId := 4 })
      { src := "c9", dst := "n0",
        body := { id := some 9, inReplyTo := none, inner := .broadcastMsg 5 } }
      5
      [{ src := "n0", dst := "c9",
         body := { id := some 3, inReplyTo := some 9, inner := .broadcastOk } }]
      rfl (by decide) (by decide)⟩

/-- The C9 demo events: init over `{n0, n1}`, topology, one client broadcast,
one batch tick (which flushes the batch and leaves the emptied entry in the
batch map). -/
def beDemoEvents : List BEEvent :=
  [ .deliver { src := "c0", dst := "n0",
               body := { id := some 1, inReplyTo := none,
                         inner := .initMsg "n0" ["n0", "n1"] } },
    .deliver { src := "c0", dst := "n0",
               body := { id := some 2, inReplyTo := none, inner := .topologyMsg [] } },
    .deliver { src := "c1", dst := "n0",
               body := { id := some 1, inReplyTo := none, inner := .broadcastMsg 7 } },
    .battick ]

/-- The node state after `beDemoEvents`: note the batch-map entry for `n1` is
present but empty. -/
def beDemoMid : BENode :=
  { id := some "n0", msgId := 5, known := [7], neighbors := ["n1"],
    nodes := ["n0", "n1"], nextBatch := [("n1", [])],
    unacknowledged := [{ src := "n0", dst := "n1",
                         body := { id := some 4, inReplyTo := none,
                                   inner := .batchBroadcast [7] } }] }

/-- C9 counterexample: after a flush, the batch-map entry stays (emptied), and
the *next* batch tick emits a `batchBroadcast []` to that neighbor even though
its outgoing batch is empty — contradicting "emits only to those neighbors
whose outgoing batch is non-empty".  The loop in `broadcast-e.rs`'s batch
ticker iterates every `next_batch` entry with no emptiness check, and
`std::mem::take` never removes entries. -/
theorem flush_empty_batch_counterexample :
    runBE beInit beDemoEvents
      = some (beDemoMid,
          [ { src := "n0", dst := "c0",
              body := { id := some 1, inReplyTo := some 1, inner := .initOk } },
            { src := "n0", dst := "c0",
              body := { id := some 2, inReplyTo := some 2, inner := .topologyOk } },
            { src := "n0", dst := "c1",
              body := { id := some 3, inReplyTo := some 1, inner := .broadcastOk } },
            { src := "n0", dst := "n1",
              body := { id := some 4, inReplyTo := none,
                        inner := .batchBroadcast [7] } } ])
    ∧ beDemoMid.nextBatch = [("n1", [])]
    ∧ stepBE beDemoMid .battick
      = some ({ beDemoMid with
                  msgId := 6,
                  unacknowledged := beDemoMid.unacknowledged
                    ++ [{ src := "n0", dst := "n1",
                          body := { id := some 5, inReplyTo := none,
                                    inner := .batchBroadcast [] } }] },
              [{ src := "n0", dst := "n1",
                 body := { id := some 5, inReplyTo := none,
                           inner := .batchBroadcast [] } }]) := by decide

/-- The flush loop's emitted messages, one per batch-map entry in order, with
consecutive fresh ids, each carrying that entry's entire accumulated batch. -/
def beFlush (nid : String) (msgId : Nat) : List (String × List Nat) → List Message
  | [] => []
  | (k, v) :: rest =>
    { src := nid, dst := k,
      body := { id := some msgId, inReplyTo := none,
                inner := .batchBroadcast v } } :: beFlush nid (msgId + 1) rest

theorem batchTickGo_eq (nid : String) : ∀ (b : List (String × List Nat)) (i : Nat),
    batchTickGo nid i b = (b.map (fun p => (p.1, [])), i + b.length, beFlush nid i b) := by
  intro b
  induction b with
  | nil => intro i; simp [batchTickGo, beFlush]
  | cons p rest ih =>
    intro i
    obtain ⟨k, v⟩ := p
    unfold batchTickGo beFlush
    rw [ih (i + 1)]
    simp
    omega

theorem beFlush_length (nid : String) : ∀ (b : List (String × List Nat)) (i : Nat),
    (beFlush nid i b).length = b.length := by
  intro b
  induction b with
  | nil => intro i; rfl
  | cons p rest ih =>
    intro i
    obtain ⟨k, v⟩ := p
    unfold beFlush
    simp [ih (i + 1)]

theorem beFlush_mem (nid : String) : ∀ (b : List (String × List Nat)) (i : Nat)
    (k : String) (v : List Nat), (k, v) ∈ b →
    ∃ j, { src := nid, dst := k,
           body := { id := some j, inReplyTo := none,
                     inner := .batchBroadcast v } } ∈ beFlush nid i b := by
  intro b
  induction b with
  | nil => intro i k v hv; simp at hv
  | cons p rest ih =>
    intro i k v hv
    obtain ⟨k', v'⟩ := p
    unfold beFlush
    rcases List.mem_cons.mp hv with heq | hmem
    · obtain ⟨h1, h2⟩ := Prod.mk.injEq .. ▸ heq
      refine ⟨i, ?_⟩
      simp [Prod.mk.injEq] at heq
      simp [heq.1, heq.2]
    · obtain ⟨j, hj⟩ := ih (i + 1) k v hmem
      exact ⟨j, List.mem_cons_of_mem _ hj⟩

/-- C9 (amended): on a batch tick with a non-empty batch map, the node emits
one `batchBroadcast` per batch-map *entry* — that is, to every neighbor a
value was ever queued for, whether or not its current batch is empty — each
carrying that entry's entire accumulated batch as a single message with a
fresh id; every emitted message is appended to the unacknowledged set, and
every entry's batch is cleared while the entry itself remains in the map.
(When the batch map is empty nothing is emitted.) -/
theorem flush_all_entries_confirm (st : BENode) (nid : String)
    (hid : st.id = some nid) (hnb : st.nextBatch ≠ []) :
    batchTick st
      = some ({ st with nextBatch := st.nextBatch.map (fun p => (p.1, [])),
                        msgId := st.msgId + st.nextBatch.length,
                        unacknowledged := st.unacknowledged
                          ++ beFlush nid st.msgId st.nextBatch },
              beFlush nid st.msgId st.nextBatch)
    ∧ (beFlush nid st.msgId st.nextBatch).length = st.nextBatch.length
    ∧ (∀ k v, (k, v) ∈ st.nextBatch →
        ∃ j, { src := nid, dst := k,
               body := { id := some j, inReplyTo := none,
                         inner := .batchBroadcast v } }
          ∈ beFlush nid st.msgId st.nextBatch)
    ∧ (∀ b2 : BENode, b2.nextBatch = [] → batchTick b2 = some (b2, [])) := by
  refine ⟨?_, beFlush_length nid st.nextBatch st.msgId,
          fun k v hv => beFlush_mem nid st.nextBatch st.msgId k v hv,
          fun b2 h2 => by unfold batchTick; rw [h2]⟩
  unfold batchTick
  cases hb : st.nextBatch with
  | nil => exact absurd hb hnb
  | cons q rest =>
    rw [hid]
    simp only [batchTickGo_eq nid]

/-- Witness for `flush_all_entries_confirm` at `beDemoMid`, whose only
batch-map entry is the emptied `("n1", [])`: the tick still emits a (single,
empty) `batchBroadcast` to `n1`. -/
theorem flush_all_entries_confirm_witness :
    beDemoMid.id = some "n0"
    ∧ beDemoMid.nextBatch ≠ []
    ∧ batchTick beDemoMid
      = some ({ beDemoMid with
                  nextBatch := beDemoMid.nextBatch.map (fun p => (p.1, [])),
                  msgId := beDemoMid.msgId + beDemoMid.nextBatch.length,
                  unacknowledged := beDemoMid.unacknowledged
                    ++ beFlush "n0" beDemoMid.msgId beDemoMid.nextBatch },
              beFlush "n0" beDemoMid.msgId beDemoMid.nextBatch)
    ∧ (beFlush "n0" beDemoMid.msgId beDemoMid.nextBatch).length
        = beDemoMid.nextBatch.length
    ∧ (∃ j, { src := "n0", dst := "n1",
              body := { id := some j, inReplyTo := none,
                        inner := .batchBroadcast [] } }
          ∈ beFlush "n0" beDemoMid.msgId beDemoMid.nextBatch)
    ∧ batchTick beInit = some (beInit, []) := by
  have h := flush_all_entries_confirm beDemoMid "n0" rfl (by decide)
  exact ⟨rfl, by decide, h.1, h.2.1, h.2.2.1 "n1" [] (by decide), h.2.2.2 beInit rfl⟩

/-- Every unacknowledged message carries an id below the node's message-id
counter (all ids the node has already allocated are below `msgId`). -/
def BEIdBound (st : BENode) : Prop :=
  ∀ m ∈ st.unacknowledged, ∃ i, m.body.id = some i ∧ i < st.msgId

theorem ackScan_subset : ∀ (irt : Option Nat) (l l' : List Message) (b : Bool),
    ackScan irt l = some (l', b) → ∀ m ∈ l', m ∈ l := by
  intro irt l
  induction l with
  | nil =>
    intro l' b h m hm
    simp [ackScan] at h
    rcases h with ⟨rfl, rfl⟩
    simp at hm
  | cons m0 rest ih =>
    intro l' b h m hm
    unfold ackScan at h
    cases hid0 : m0.body.id with
    | none => rw [hid0] at h; simp at h
    | some mid =>
      cases hirt : irt with
      | none => rw [hid0, hirt] at h; simp at h
      | some j =>
        rw [hid0, hirt] at h
        by_cases hmj : mid = j
        · simp [hmj] at h
          obtain ⟨h1, h2⟩ := h
          subst h1
          exact List.mem_cons_of_mem _ hm
        · simp [hmj] at h
          cases hrec : ackScan (some j) rest with
          | none => rw [hrec] at h; simp at h
          | some p =>
            rw [hrec] at h
            simp at h
            obtain ⟨h1, h2⟩ := h
            subst h1
            rcases List.mem_cons.mp hm with rfl | hmem
            · exact List.mem_cons_self _ _
            · exact List.mem_cons_of_mem _ (ih p.1 p.2 (by rw [hirt, hrec]) m hmem)

theorem ackScan_first_match : ∀ (pre : List Message) (m0 : Message)
    (post : List Message) (k : Nat),
    (∀ m ∈ pre, ∃ jm, m.body.id = some jm ∧ jm ≠ k) → m0.body.id = some k →
    ackScan (some k) (pre ++ m0 :: post) = some (pre ++ post, true) := by
  intro pre
  induction pre with
  | nil =>
    intro m0 post k _ hm0
    simp [ackScan, hm0]
  | cons p rest ih =>
    intro m0 post k hpre hm0
    obtain ⟨jp, hjp, hne⟩ := hpre p (List.mem_cons_self _ _)
    have hrec := ih m0 post k (fun m hm => hpre m (List.mem_cons_of_mem _ hm)) hm0
    simp [ackScan, hjp, hne, hrec]

theorem beFlush_ids (nid : String) : ∀ (b : List (String × List Nat)) (i : Nat),
    ∀ m ∈ beFlush nid i b, ∃ j, m.body.id = some j ∧ i ≤ j ∧ j < i + b.length := by
  intro b
  induction b with
  | nil => intro i m hm; simp [beFlush] at hm
  | cons p rest ih =>
    intro i m hm
    obtain ⟨k, v⟩ := p
    unfold beFlush at hm
    rcases List.mem_cons.mp hm with rfl | hmem
    · exact ⟨i, rfl, Nat.le_refl i, by simp⟩
    · obtain ⟨j, hj, hj1, hj2⟩ := ih (i + 1) m hmem
      refine ⟨j, hj, by omega, ?_⟩
      simp only [List.length_cons]
      omega

theorem handleBE_avoid {st st' : BENode} {msg : Message} {out : List Message} {k : Nat}
    (hb : BEIdBound st) (hk : k < st.msgId)
    (habs : ∀ m ∈ st.unacknowledged, m.body.id ≠ some k)
    (h : handleBE st msg = some (st', out)) :
    BEIdBound st' ∧ k < st'.msgId ∧ (∀ m ∈ st'.unacknowledged, m.body.id ≠ some k)
    ∧ (∀ m ∈ out, m.body.id ≠ some k) := by
  cases hm : msg.body.inner
  case initMsg a b =>
    cases hid : st.id
    · simp [handleBE, hm, hid] at h
      obtain ⟨h1, h2⟩ := h
      subst h1
      subst h2
      refine ⟨?_, by simp; omega, habs, ?_⟩
      · intro m hmem
        obtain ⟨i, hi1, hi2⟩ := hb m hmem
        exact ⟨i, hi1, by simp; omega⟩
      · intro m hmem
        simp at hmem
        subst hmem
        simp
        omega
    · simp [handleBE, hm, hid] at h
  case broadcastMsg v =>
    simp [handleBE, hm] at h
    obtain ⟨h1, h2⟩ := h
    subst h1
    subst h2
    refine ⟨?_, by simp; omega, habs, ?_⟩
    · intro m hmem
      obtain ⟨i, hi1, hi2⟩ := hb m hmem
      exact ⟨i, hi1, by simp; omega⟩
    · intro m hmem
      simp at hmem
      subst hmem
      simp
      omega
  case batchBroadcast vs =>
    simp [handleBE, hm] at h
    obtain ⟨h1, h2⟩ := h
    subst h1
    subst h2
    refine ⟨?_, by simp; omega, habs, ?_⟩
    · intro m hmem
      obtain ⟨i, hi1, hi2⟩ := hb m hmem
      exact ⟨i, hi1, by simp; omega⟩
    · intro m hmem
      simp at hmem
      subst hmem
      simp
      omega
  case topologyMsg t =>
    cases hid : st.id
    · simp [handleBE, hm, hid] at h
    · cases hidx : idxOf? (by assumption : String) st.nodes
      all_goals simp [handleBE, hm, hid, hidx] at h
      obtain ⟨h1, h2⟩ := h
      subst h1
      subst h2
      refine ⟨?_, by simp; omega, habs, ?_⟩
      · intro m hmem
        obtain ⟨i, hi1, hi2⟩ := hb m hmem
        exact ⟨i, hi1, by simp; omega⟩
      · intro m hmem
        simp at hmem
        subst hmem
        simp
        omega
  case readMsg =>
    simp [handleBE, hm] at h
    obtain ⟨h1, h2⟩ := h
    subst h1
    subst h2
    refine ⟨?_, by simp; omega, habs, ?_⟩
    · intro m hmem
      obtain ⟨i, hi1, hi2⟩ := hb m hmem
      exact ⟨i, hi1, by simp; omega⟩
    · intro m hmem
      simp at hmem
      subst hmem
      simp
      omega
  case broadcastOk =>
    cases hscan : ackScan msg.body.inReplyTo st.unacknowledged
    · simp [handleBE, hm, hscan] at h
    · simp [handleBE, hm, hscan] at h
      obtain ⟨h1, h2⟩ := h
      subst h1
      subst h2
      have hsub := ackScan_subset msg.body.inReplyTo st.unacknowledged _ _ hscan
      refine ⟨?_, by simpa using hk, ?_, by simp⟩
      · intro m hmem
        simp at hmem
        obtain ⟨i, hi1, hi2⟩ := hb m (hsub m hmem)
        exact ⟨i, hi1, by simpa using hi2⟩
      · intro m hmem
        simp at hmem
        exact habs m (hsub m hmem)
  all_goals simp [handleBE, hm] at h

theorem stepBE_avoid {st st' : BENode} {e : BEEvent} {out : List Message} {k : Nat}
    (hb : BEIdBound st) (hk : k < st.msgId)
    (habs : ∀ m ∈ st.unacknowledged, m.body.id ≠ some k)
    (h : stepBE st e = some (st', out)) :
    BEIdBound st' ∧ k < st'.msgId ∧ (∀ m ∈ st'.unacknowledged, m.body.id ≠ some k)
    ∧ (∀ m ∈ out, m.body.id ≠ some k) := by
  cases e with
  | deliver m => exact handleBE_avoid hb hk habs h
  | retrytick =>
    simp [stepBE] at h
    obtain ⟨h1, h2⟩ := h
    subst h1
    subst h2
    exact ⟨hb, hk, habs, habs⟩
  | battick =>
    unfold stepBE batchTick at h
    cases hnb : st.nextBatch with
    | nil =>
      rw [hnb] at h
      simp at h
      obtain ⟨h1, h2⟩ := h
      subst h1
      subst h2
      exact ⟨hb, hk, habs, by simp⟩
    | cons q rest =>
      rw [hnb] at h
      cases hid : st.id with
      | none => simp [hid] at h
      | some nid =>
        simp [hid, batchTickGo_eq nid] at h
        obtain ⟨h1, h2⟩ := h
        subst h1
        subst h2
        have hflush := beFlush_ids nid (q :: rest) st.msgId
        refine ⟨?_, by simp; omega, ?_, ?_⟩
        · intro m hmem
          simp at hmem
          rcases hmem with hold | hnew
          · obtain ⟨i, hi1, hi2⟩ := hb m hold
            refine ⟨i, hi1, ?_⟩
            simp
            omega
          · obtain ⟨j, hj, hj1, hj2⟩ := hflush m hnew
            refine ⟨j, hj, ?_⟩
            simp at hj2 ⊢
            omega
        · intro m hmem
          simp at hmem
          rcases hmem with hold | hnew
          · exact habs m hold
          · obtain ⟨j, hj, hj1, hj2⟩ := hflush m hnew
            rw [hj]
            intro hcontra
            simp at hcontra
            omega
        · intro m hmem
          obtain ⟨j, hj, hj1, hj2⟩ := hflush m hmem
          rw [hj]
          intro hcontra
          simp at hcontra
          omega

theorem runBE_avoid {k : Nat} : ∀ (evs : List BEEvent) (st st' : BENode)
    (out : List Message),
    BEIdBound st → k < st.msgId → (∀ m ∈ st.unacknowledged, m.body.id ≠ some k) →
    runBE st evs = some (st', out) →
    (∀ m ∈ out, m.body.id ≠ some k)
    ∧ BEIdBound st' ∧ k < st'.msgId
    ∧ (∀ m ∈ st'.unacknowledged, m.body.id ≠ some k) := by
  intro evs
  induction evs with
  | nil =>
    intro st st' out hb hk habs h
    simp [runBE] at h
    obtain ⟨h1, h2⟩ := h
    subst h1
    subst h2
    exact ⟨by simp, hb, hk, habs⟩
  | cons e rest ih =>
    intro st st' out hb hk habs h
    unfold runBE at h
    cases hh : stepBE st e with
    | none => rw [hh] at h; simp at h
    | some p =>
      rw [hh] at h
      have h' : (runBE p.1 rest).map (fun r => (r.1, p.2 ++ r.2)) = some (st', out) := h
      cases hrest : runBE p.1 rest with
      | none => rw [hrest] at h'; simp at h'
      | some q =>
        rw [hrest] at h'
        simp at h'
        obtain ⟨hq1, hq2⟩ := h' 
        obtain ⟨hb', hk', habs', hout1⟩ := stepBE_avoid hb hk habs (by rw [hh])
        obtain ⟨hout2, hb'', hk'', habs''⟩ :=
          ih p.1 q.1 q.2 hb' hk' habs' (by rw [hrest])
        subst hq1
        subst hq2
        refine ⟨?_, hb'', hk'', habs''⟩
        intro m hm
        rcases List.mem_append.mp hm with h1 | h2
        · exact hout1 m h1
        · exact hout2 m h2

/-- C4: (i) on every retry tick a `broadcast-e.rs` node re-emits exactly its
unacknowledged list, verbatim (same ids, same payloads), changing no state;
(ii) processing a `BroadcastOk` whose `in_reply_to` equals the id of a pending
message removes exactly the first matching entry — entries after the first
match are not even inspected — and emits nothing; (iii) from any state whose
pending entries all avoid id `k` with `k` below the message-id counter, no
later run of the main loop (deliveries, batch ticks, retry ticks) ever emits
a message with id `k`, nor does id `k` ever re-enter the unacknowledged set:
after the acknowledgment removes a message, it is never emitted again. -/
theorem unack_retry_confirm (st : BENode) (k : Nat) (pre post : List Message)
    (m0 : Message) (asrc adst : String) (aid : Option Nat)
    (hsplit : st.unacknowledged = pre ++ m0 :: post)
    (hpre : ∀ m ∈ pre, ∃ jm, m.body.id = some jm ∧ jm ≠ k)
    (hm0 : m0.body.id = some k) :
    (∀ s : BENode, stepBE s .retrytick = some (s, s.unacknowledged))
    ∧ handleBE st { src := asrc, dst := adst,
                    body := { id := aid, inReplyTo := some k, inner := .broadcastOk } }
        = some ({ st with unacknowledged := pre ++ post }, [])
    ∧ (∀ (st2 st' : BENode) (evs : List BEEvent) (out : List Message),
        BEIdBound st2 → k < st2.msgId →
        (∀ m ∈ st2.unacknowledged, m.body.id ≠ some k) →
        runBE st2 evs = some (st', out) →
        (∀ m ∈ out, m.body.id ≠ some k)
        ∧ (∀ m ∈ st'.unacknowledged, m.body.id ≠ some k)) := by
  refine ⟨fun s => rfl, ?_, ?_⟩
  · simp [handleBE, hsplit, ackScan_first_match pre m0 post k hpre hm0]
  · intro st2 st' evs out hb hk habs hrun
    obtain ⟨h1, _, _, h4⟩ := runBE_avoid evs st2 st' out hb hk habs hrun
    exact ⟨h1, h4⟩

/-- A pending gossip with id 2 (not the acknowledged one). -/
def wMA : Message :=
  { src := "n0", dst := "n1",
    body := { id := some 2, inReplyTo := none, inner := .batchBroadcast [4] } }

/-- The pending gossip with id 3 that gets acknowledged. -/
def wMB : Message :=
  { src := "n0", dst := "n1",
    body := { id := some 3, inReplyTo := none, inner := .batchBroadcast [6] } }

/-- A `broadcast-e.rs` node with two pending gossips, for the C4 witness. -/
def wC4 : BENode :=
  { id := some "n0", msgId := 9, known := [4, 6], neighbors := ["n1"],
    nodes := ["n0", "n1"], nextBatch := [], unacknowledged := [wMA, wMB] }

/-- Witness for `unack_retry_confirm` at `wC4`, acknowledging id 3. -/
theorem unack_retry_confirm_witness :
    wC4.unacknowledged = [wMA] ++ wMB :: []
    ∧ (∀ m ∈ [wMA], ∃ jm, m.body.id = some jm ∧ jm ≠ 3)
    ∧ wMB.body.id = some 3
    ∧ ((∀ s : BENode, stepBE s .retrytick = some (s, s.unacknowledged))
      ∧ handleBE wC4 { src := "n1", dst := "n0",
                       body := { id := some 7, inReplyTo := some 3,
                                 inner := .broadcastOk } }
          = some ({ wC4 with unacknowledged := [wMA] ++ [] }, [])
      ∧ (∀ (st2 st' : BENode) (evs : List BEEvent) (out : List Message),
          BEIdBound st2 → 3 < st2.msgId →
          (∀ m ∈ st2.unacknowledged, m.body.id ≠ some 3) →
          runBE st2 evs = some (st', out) →
          (∀ m ∈ out, m.body.id ≠ some 3)
          ∧ (∀ m ∈ st'.unacknowledged, m.body.id ≠ some 3))) :=
  ⟨rfl,
   fun m hm => by
     simp at hm
     subst hm
     exact ⟨2, rfl, by decide⟩,
   rfl,
   unack_retry_confirm wC4 3 [wMA] [] wMB "n1" "n0" (some 7) rfl
     (fun m hm => by
       simp at hm
       subst hm
       exact ⟨2, rfl, by decide⟩)
     rfl⟩

theorem ackScan_no_match : ∀ (l : List Message) (k : Nat),
    (∀ m ∈ l, ∃ jm, m.body.id = some jm ∧ jm ≠ k) →
    ackScan (some k) l = some (l, false) := by
  intro l
  induction l with
  | nil => intro k _; rfl
  | cons m0 rest ih =>
    intro k hall
    obtain ⟨j0, hj0, hne⟩ := hall m0 (List.mem_cons_self _ _)
    have hrec := ih k (fun m hm => hall m (List.mem_cons_of_mem _ hm))
    simp [ackScan, hj0, hne, hrec]

/-- C1: the counter engine's compare-and-swap retry loop.
(i) When a pending CAS for an Add request (request map holding
`(client, irt, some d)`) is answered by an `Error` with code 22 whose text
parses to the store's current value `v` (the first maximal digit run), the
node emits exactly one new CAS with `from = v` and `to = v + d` and re-records
the request as pending under the fresh message id — the request stays pending.
(ii) When a pending CAS is answered by `CasOk`, the node replies `AddOk` to
the recorded requester exactly once: the first delivery emits the single
`AddOk`, and redelivering the same `CasOk` emits nothing.
(iii) An `Error` reply with any code other than 22 aborts the process
(the handler returns `none`, the model of the panic). -/
theorem gcounter_cas_retry_confirm (st stB : GNode)
    (nid nidB client clientB e esrc edst bsrc bdst : String)
    (k kB irt irtB d v : Nat) (deltaB : Option Nat)
    (rid ridB : Option Nat)
    (unack' unackB : List Message)
    (rmap' rmapB : List (Nat × (String × Nat × Option Nat)))
    (hid : st.id = some nid)
    (hscan : ackScan (some k) st.unacknowledged = some (unack', true))
    (hnum : extractNum e = some v)
    (htake : alTake st.requestMap k = some ((client, irt, some d), rmap'))
    (hidB : stB.id = some nidB)
    (hscanB : ackScan (some kB) stB.unacknowledged = some (unackB, true))
    (htakeB : alTake stB.requestMap kB = some ((clientB, irtB, deltaB), rmapB))
    (hafterU : ∀ m ∈ unackB, ∃ jm, m.body.id = some jm ∧ jm ≠ kB) :
    (handleG st { src := esrc, dst := edst,
                  body := { id := rid, inReplyTo := some k,
                            inner := .errorMsg 22 (some e) } }
      = some ({ st with
                  unacknowledged := unack'
                    ++ [gCas nid st.msgId (toString v) (toString (v + d))],
                  requestMap := alSet rmap' st.msgId (client, irt, some d),
                  msgId := st.msgId + 1 },
              [gCas nid st.msgId (toString v) (toString (v + d))]))
    ∧ alLookup (alSet rmap' st.msgId (client, irt, some d)) st.msgId
        = some (client, irt, some d)
    ∧ (handleG stB { src := bsrc, dst := bdst,
                     body := { id := ridB, inReplyTo := some kB, inner := .casKvOk } }
      = some ({ stB with unacknowledged := unackB, requestMap := rmapB,
                         msgId := stB.msgId + 1 },
              [{ src := nidB, dst := clientB,
                 body := { id := some stB.msgId, inReplyTo := some irtB,
                           inner := .addOk } }]))
    ∧ (handleG { stB with unacknowledged := unackB, requestMap := rmapB,
                          msgId := stB.msgId + 1 }
        { src := bsrc, dst := bdst,
          body := { id := ridB, inReplyTo := some kB, inner := .casKvOk } }
      = some ({ stB with unacknowledged := unackB, requestMap := rmapB,
                         msgId := stB.msgId + 1 }, []))
    ∧ (∀ (stC : GNode) (c : Nat) (t : Option String) (csrc cdst : String)
        (cid cirt : Option Nat), c ≠ 22 →
        handleG stC { src := csrc, dst := cdst,
                      body := { id := cid, inReplyTo := cirt,
                                inner := .errorMsg c t } } = none) := by
  refine ⟨?_, alLookup_alSet_self _ _ _, ?_, ?_, ?_⟩
  · simp [handleG, hid, hscan, hnum, htake, gCas]
  · simp [handleG, hidB, hscanB, htakeB]
  · have hscan2 := ackScan_no_match unackB kB hafterU
    simp [handleG, hscan2]
  · intro stC c t csrc cdst cid cirt hc
    simp [handleG, hc]

/-- The C1 witness node: one pending CAS (id 8) for an Add of delta 2. -/
def gW1 : GNode :=
  { id := some "n1", msgId := 10, unacknowledged := [gCas "n1" 8 "5" "7"],
    requestMap := [(8, ("c1", 4, some 2))] }

/-- The C1 witness node for the CasOk leg: one pending CAS (id 9). -/
def gW2 : GNode :=
  { id := some "n1", msgId := 11, unacknowledged := [gCas "n1" 9 "6" "8"],
    requestMap := [(9, ("c1", 4, some 2))] }

/-- Witness for `gcounter_cas_retry_confirm`: a failed CAS (code 22, store
value 6 embedded in the error text) retried as `cas(6, 8)`, then an
acknowledged CAS answered with exactly one `AddOk`. -/
theorem gcounter_cas_retry_confirm_witness :
    gW1.id = some "n1"
    ∧ ackScan (some 8) gW1.unacknowledged = some ([], true)
    ∧ extractNum "current value is 6" = some 6
    ∧ alTake gW1.requestMap 8 = some (("c1", 4, some 2), [])
    ∧ gW2.id = some "n1"
    ∧ ackScan (some 9) gW2.unacknowledged = some ([], true)
    ∧ alTake gW2.requestMap 9 = some (("c1", 4, some 2), [])
    ∧ ((handleG gW1 { src := "seq-kv", dst := "n1",
                      body := { id := some 30, inReplyTo := some 8,
                                inner := .errorMsg 22 (some "current value is 6") } }
        = some ({ gW1 with
                    unacknowledged := []
                      ++ [gCas "n1" gW1.msgId (toString 6) (toString (6 + 2))],
                    requestMap := alSet [] gW1.msgId ("c1", 4, some 2),
                    msgId := gW1.msgId + 1 },
                [gCas "n1" gW1.msgId (toString 6) (toString (6 + 2))]))
      ∧ alLookup (alSet [] gW1.msgId (("c1" : String), (4 : Nat), some 2)) gW1.msgId
          = some ("c1", 4, some 2)
      ∧ (handleG gW2 { src := "seq-kv", dst := "n1",
                       body := { id := some 31, inReplyTo := some 9,
                                 inner := .casKvOk } }
        = some ({ gW2 with unacknowledged := [], requestMap := [],
                           msgId := gW2.msgId + 1 },
                [{ src := "n1", dst := "c1",
                   body := { id := some gW2.msgId, inReplyTo := some 4,
                             inner := .addOk } }]))
      ∧ (handleG { gW2 with unacknowledged := [], requestMap := [],
                            msgId := gW2.msgId + 1 }
          { src := "seq-kv", dst := "n1",
            body := { id := some 31, inReplyTo := some 9, inner := .casKvOk } }
        = some ({ gW2 with unacknowledged := [], requestMap := [],
                           msgId := gW2.msgId + 1 }, []))
      ∧ (∀ (stC : GNode) (c : Nat) (t : Option String) (csrc cdst : String)
          (cid cirt : Option Nat), c ≠ 22 →
          handleG stC { src := csrc, dst := cdst,
                        body := { id := cid, inReplyTo := cirt,
                                  inner := .errorMsg c t } } = none)) :=
  ⟨rfl, by decide, by decide, by decide, rfl, by decide, by decide,
    gcounter_cas_retry_confirm gW1 gW2 "n1" "n1" "c1" "c1" "current value is 6"
      "seq-kv" "n1" "seq-kv" "n1" 8 9 4 4 2 6 (some 2) (some 30) (some 31) [] [] [] []
      rfl (by decide) (by decide) (by decide) rfl (by decide) (by decide)
      (fun m hm => absurd hm (by simp))⟩
